import Mathlib

/-!
A shallow embedding of the CSPRNG core in random/random-csprng.c and proofs
about it.

Byte buffers handed to the module (entropy inputs, the seed file image,
pid/time/clock samples) are lists of byte values.  The two pool buffers
(each POOLSIZE + BLOCKLEN bytes) are represented as natural numbers in
base 256, little-endian: byte i of a buffer m is m / 256^i % 256, exactly
the memory image of the C byte array on a little-endian machine with
8-byte unsigned long.  memcpy into a byte range and byte indexing become
arithmetic on these numbers.  Machine-word arithmetic (the ADD_VALUE
derivation) is addition modulo 2^64 on 8-byte spans.  The external SHA-1
primitives, the entropy gatherers and the environment samples are
parameters collected in an environment record.
-/

namespace Csprng

/-- DIGESTLEN from random-csprng.c: SHA-1 digest length. -/
def DIGESTLEN : Nat := 20

/-- BLOCKLEN from random-csprng.c: hash input block length. -/
def BLOCKLEN : Nat := 64

/-- POOLBLOCKS from random-csprng.c: number of digests making up the pool. -/
def POOLBLOCKS : Nat := 30

/-- POOLSIZE = POOLBLOCKS * DIGESTLEN = 600. -/
def POOLSIZE : Nat := POOLBLOCKS * DIGESTLEN

/-- POOLWORDS for SIZEOF_UNSIGNED_LONG = 8. -/
def POOLWORDS : Nat := POOLSIZE / 8

/-- ADD_VALUE for SIZEOF_UNSIGNED_LONG = 8. -/
def ADD_VALUE : Nat := 0xa5a5a5a5a5a5a5a5

/-- Byte i of a base-256 little-endian buffer value. -/
def getByte (m i : Nat) : Nat := m / 256 ^ i % 256

/-- The len-byte span of a buffer value starting at byte i, itself a
base-256 little-endian value. -/
def getBytes (m i len : Nat) : Nat := m / 256 ^ i % 256 ^ len

/-- memcpy of the len-byte value v into buffer m at byte offset i. -/
def setBytes (m i len v : Nat) : Nat :=
  m % 256 ^ i + v % 256 ^ len * 256 ^ i + m / 256 ^ (i + len) * 256 ^ (i + len)

/-- Modelled from the spec: the enum random_origins lives in
rand-internal.h, which is not among the sources.  The spec fixes the only
fact the core uses about the numeric values: exactly the origins SLOWPOLL
and EXTRAPOLL are greater than or equal to SLOWPOLL (INIT, EXTERNAL and
FASTPOLL are below it). -/
inductive RO where
  | init
  | external
  | fastpoll
  | slowpoll
  | extrapoll
deriving DecidableEq, Repr

/-- Numeric value of an origin tag, as used in the comparison
origin >= RANDOM_ORIGIN_SLOWPOLL inside add_randomness. -/
def RO.val : RO → Nat
  | .init => 0
  | .external => 1
  | .fastpoll => 2
  | .slowpoll => 3
  | .extrapoll => 4

/-- The module-global state of random-csprng.c that the claims are about:
the two pool buffers (each POOLSIZE + BLOCKLEN bytes, as base-256
values), the cursors, the seeding flags, the failsafe digest statics of
mix_pool, the static pid of read_pool (as the byte list the C code would
fold) and the two statistics counters touched by add_randomness. -/
structure PoolState where
  rndpool : Nat
  keypool : Nat
  pool_writepos : Nat
  pool_readpos : Nat
  pool_filled : Bool
  pool_filled_counter : Nat
  did_initial_extra_seeding : Bool
  pool_balance : Int
  just_mixed : Bool
  failsafe_digest : Nat
  failsafe_digest_valid : Bool
  my_pid : Option (List Nat)
  allow_seed_file_update : Bool
  addbytes : Nat
  naddbytes : Nat
deriving DecidableEq, Repr

/-- The external world as seen by the core: the SHA-1 mixblock primitive
(state type sigma; the digest is a 20-byte value computed from the 64-byte
input block value), the one-shot hash over the 600 pool bytes, the slow
gatherer (the byte list it delivers for a request), the jitter-RNG
presence test, the buffers folded by do_fast_random_poll, the seed file
contents (none when the file is absent, unconfigured or invalid), the
pid/time/clock samples of read_seed_file, and the quick_test flag. -/
structure Env (σ : Type) where
  mdInit : σ
  mixBlock : σ → Nat → σ × Nat
  hashBuffer : Nat → Nat
  slowGather : RO → Nat → Nat → List Nat
  jitter : Bool
  fastData : List (List Nat)
  seedBytes : Option (List Nat)
  pidBytes : List Nat
  timeBytes : List Nat
  clockBytes : List Nat
  quick_test : Bool

/-- A request issued to the slow gatherer via read_random_source. -/
structure Request where
  origin : RO
  len : Nat
  level : Nat
deriving DecidableEq, Repr

/-- The 64-byte block read of one mix_pool loop iteration: a plain
memcpy when p + BLOCKLEN lies strictly below pend, otherwise the byte
loop that wraps pp back to the start of the 600-byte pool. -/
def readBlock (pool pOff : Nat) : Nat :=
  if pOff + BLOCKLEN < POOLSIZE then getBytes pool pOff BLOCKLEN
  else getBytes pool pOff (POOLSIZE - pOff)
       + getBytes pool 0 (pOff + BLOCKLEN - POOLSIZE) * 256 ^ (POOLSIZE - pOff)

/-- The content of the 64-byte scratch area after _gcry_sha1_mixblock ran
on it: the 20-byte digest followed by the last 44 bytes of the block that
was hashed. -/
def mixedScratch (dg block : Nat) : Nat :=
  dg % 256 ^ DIGESTLEN + block / 256 ^ DIGESTLEN * 256 ^ DIGESTLEN

/-- The n = 1 .. POOLBLOCKS-1 loop of mix_pool, carrying the byte offset
of the pointer p exactly as the source does: the block is read at p, the
scratch area (offset POOLSIZE) receives the mixed hashbuf, p advances by
DIGESTLEN and the digest is copied to the new p. -/
def mix_loop {σ : Type} (E : Env σ) : Nat → σ → Nat → Nat → Nat
  | 0, _, _, pool => pool
  | k + 1, md, pOff, pool =>
      let block := readBlock pool pOff
      let r := E.mixBlock md block
      let pool := setBytes pool POOLSIZE BLOCKLEN (mixedScratch r.2 block)
      let pOff := pOff + DIGESTLEN
      let pool := setBytes pool pOff DIGESTLEN r.2
      mix_loop E k r.1 pOff pool

/-- mix_pool from random-csprng.c.  The failsafe_digest statics are
passed and returned explicitly; isRnd tells whether the pool being mixed
is rndpool (the source compares the pool pointer against the rndpool
global).  Returns the new pool, failsafe_digest and
failsafe_digest_valid. -/
def mix_pool {σ : Type} (E : Env σ) (isRnd : Bool) (fsd : Nat) (fsv : Bool)
    (pool : Nat) : Nat × Nat × Bool :=
  let hb := getBytes pool (POOLSIZE - DIGESTLEN) DIGESTLEN
            + getBytes pool 0 (BLOCKLEN - DIGESTLEN) * 256 ^ DIGESTLEN
  let r := E.mixBlock E.mdInit hb
  let pool := setBytes pool POOLSIZE BLOCKLEN (mixedScratch r.2 hb)
  let pool := setBytes pool 0 DIGESTLEN r.2
  let pool :=
    if fsv ∧ isRnd then
      setBytes pool 0 DIGESTLEN (Nat.xor (getBytes pool 0 DIGESTLEN) fsd)
    else pool
  let pool := mix_loop E (POOLBLOCKS - 1) r.1 0 pool
  if isRnd then (pool, E.hashBuffer (getBytes pool 0 POOLSIZE), true)
  else (pool, fsd, fsv)

/-- The byte loop of add_randomness, translated from the source: count is
the local counter that is reset only inside the crediting branch; at a
wrap the credit happens when origin >= SLOWPOLL and the pool is not yet
filled, then pool_writepos is reset, rndpool is mixed and just_mixed is
set to whether the buffer is exhausted. -/
def add_loop {σ : Type} (E : Env σ) (origin : RO) :
    List Nat → Nat → PoolState → PoolState
  | [], _, st => st
  | b :: rest, count, st =>
      let st := { st with
        rndpool := setBytes st.rndpool st.pool_writepos 1
          (Nat.xor (getByte st.rndpool st.pool_writepos) b),
        pool_writepos := st.pool_writepos + 1 }
      let count := count + 1
      if st.pool_writepos ≥ POOLSIZE then
        let p :=
          if origin.val ≥ RO.slowpoll.val ∧ ¬st.pool_filled then
            let c := st.pool_filled_counter + count
            ({ st with pool_filled_counter := c,
                       pool_filled := decide (c ≥ POOLSIZE) }, 0)
          else (st, count)
        let st := p.1
        let mr := mix_pool E true st.failsafe_digest st.failsafe_digest_valid
                    st.rndpool
        let st := { st with pool_writepos := 0,
                            rndpool := mr.1,
                            failsafe_digest := mr.2.1,
                            failsafe_digest_valid := mr.2.2,
                            just_mixed := rest.isEmpty }
        add_loop E origin rest p.2 st
      else add_loop E origin rest count st

/-- add_randomness from random-csprng.c: bump the statistics counters and
fold the buffer byte by byte. -/
def add_randomness {σ : Type} (E : Env σ) (st : PoolState) (buf : List Nat)
    (origin : RO) : PoolState :=
  add_loop E origin buf 0
    { st with addbytes := st.addbytes + buf.length,
              naddbytes := st.naddbytes + 1 }

/-- Written from the words of the claim for the accumulator: for each
incoming byte, XOR it into rndpool at write_pos and increment write_pos;
whenever write_pos reaches POOLSIZE, credit pool_filled_counter with the
number of buffer bytes accumulated since the last wrap exactly when the
origin is at least SLOWPOLL and the pool is not yet filled (setting
pool_filled once the counter reaches POOLSIZE), then reset write_pos to
0, mix rndpool, and set just_mixed to true if and only if the wrapping
byte was the last byte of the buffer.  The bytes-since-last-wrap counter
is reset at every wrap. -/
def add_spec_loop {σ : Type} (E : Env σ) (origin : RO) :
    List Nat → Nat → PoolState → PoolState
  | [], _, st => st
  | b :: rest, sinceWrap, st =>
      let st := { st with
        rndpool := setBytes st.rndpool st.pool_writepos 1
          (Nat.xor (getByte st.rndpool st.pool_writepos) b),
        pool_writepos := st.pool_writepos + 1 }
      let sinceWrap := sinceWrap + 1
      if st.pool_writepos ≥ POOLSIZE then
        let st :=
          if origin.val ≥ RO.slowpoll.val ∧ ¬st.pool_filled then
            let c := st.pool_filled_counter + sinceWrap
            { st with pool_filled_counter := c,
                      pool_filled := decide (c ≥ POOLSIZE) }
          else st
        let mr := mix_pool E true st.failsafe_digest st.failsafe_digest_valid
                    st.rndpool
        let st := { st with pool_writepos := 0,
                            rndpool := mr.1,
                            failsafe_digest := mr.2.1,
                            failsafe_digest_valid := mr.2.2,
                            just_mixed := decide (rest = []) }
        add_spec_loop E origin rest 0 st
      else add_spec_loop E origin rest sinceWrap st

/-- The claim-worded accumulator including its statistics update. -/
def add_randomness_spec {σ : Type} (E : Env σ) (st : PoolState)
    (buf : List Nat) (origin : RO) : PoolState :=
  add_spec_loop E origin buf 0
    { st with addbytes := st.addbytes + buf.length,
              naddbytes := st.naddbytes + 1 }

/-- read_random_source: deliver the gathered bytes to add_randomness and
record the request made to the slow gatherer. -/
def read_random_source {σ : Type} (E : Env σ) (st : PoolState) (origin : RO)
    (len lvl : Nat) : PoolState × Request :=
  (add_randomness E st (E.slowGather origin len lvl) origin,
   ⟨origin, len, lvl⟩)

/-- The success/failure paths of read_seed_file.  All failure paths
(unconfigured, missing, unreadable, irregular, empty or wrong-sized file)
do not touch the pool and report not-loaded; they are collapsed into
E.seedBytes = none.  On success the POOLSIZE byte buffer is folded with
origin INIT, then pid, wall-clock time and CPU clock, then 128 bytes
(jitter RNG present) or 32 bytes are read from the slow source with
origin INIT at level GCRY_STRONG_RANDOM = 1, and the update flag is set.
Returns (loaded, state, requests). -/
def read_seed_file {σ : Type} (E : Env σ) (st : PoolState) :
    Bool × PoolState × List Request :=
  match E.seedBytes with
  | none => (false, st, [])
  | some buf =>
      let st := add_randomness E st buf .init
      let st := add_randomness E st E.pidBytes .init
      let st := add_randomness E st E.timeBytes .init
      let st := add_randomness E st E.clockBytes .init
      let r := read_random_source E st .init (if E.jitter then 128 else 32) 1
      (true, { r.1 with allow_seed_file_update := true }, [r.2])

/-- Fatal terminations inside read_pool: the oversize request check, the
BUG() inside the first-time very-strong extra seeding, the BUG() inside
the pool-balance top-up, and exhaustion of the fuel bounding the
while-not-pool-filled slow-poll loop (the C code would keep polling). -/
inductive Fatal where
  | oversize
  | bugInitialSeeding
  | bugTopup
  | pollTimeout
deriving DecidableEq, Repr

/-- Result of the extractor: the fatal outcome if any, the final state,
the requests issued to the slow gatherer, and the delivered bytes. -/
structure RPResult where
  fatal : Option Fatal
  st : PoolState
  reqs : List Request
  out : List Nat
deriving Repr

/-- The fork pre-check at the top of read_pool: record the pid on first
entry; if the recorded pid differs, fold the new pid with origin INIT and
clear just_mixed. -/
def rp_forkpre {σ : Type} (E : Env σ) (pid : List Nat) (st : PoolState) :
    PoolState :=
  match st.my_pid with
  | none => { st with my_pid := some pid }
  | some p =>
      if p = pid then st
      else
        let st := add_randomness E { st with my_pid := some pid } pid .init
        { st with just_mixed := false }

/-- Seed-on-demand step of read_pool: when the pool is not yet filled,
try the seed file and set pool_filled on success. -/
def rp_seed {σ : Type} (E : Env σ) (st : PoolState) :
    PoolState × List Request :=
  if st.pool_filled then (st, [])
  else
    let r := read_seed_file E st
    if r.1 then ({ r.2.1 with pool_filled := true }, r.2.2)
    else (r.2.1, r.2.2)

/-- First-time very-strong extra seeding of read_pool: zero the balance,
request max(length, 16) fresh bytes (BUG when that exceeds POOLSIZE) from
the slow gatherer with origin EXTRAPOLL at level 2, credit the balance
and set did_initial_extra_seeding. -/
def rp_topup1 {σ : Type} (E : Env σ) (length lvl : Nat) (st : PoolState) :
    Option Fatal × PoolState × List Request :=
  if lvl = 2 ∧ ¬st.did_initial_extra_seeding then
    let st := { st with pool_balance := 0 }
    let needed := length
    if needed < 16 then
      let r := read_random_source E st .extrapoll 16 2
      (none, { r.1 with pool_balance := r.1.pool_balance + 16,
                        did_initial_extra_seeding := true }, [r.2])
    else if needed > POOLSIZE then (some .bugInitialSeeding, st, [])
    else
      let r := read_random_source E st .extrapoll needed 2
      (none, { r.1 with pool_balance := r.1.pool_balance + needed,
                        did_initial_extra_seeding := true }, [r.2])
  else (none, st, [])

/-- Pool-balance top-up of read_pool for level 2 requests: clamp a
negative balance to zero, request the missing bytes (BUG when more than
POOLSIZE) with origin EXTRAPOLL at level 2 and credit the balance. -/
def rp_topup2 {σ : Type} (E : Env σ) (length lvl : Nat) (st : PoolState) :
    Option Fatal × PoolState × List Request :=
  if lvl = 2 ∧ st.pool_balance < (length : Int) then
    let st := if st.pool_balance < 0 then { st with pool_balance := 0 } else st
    let needed := ((length : Int) - st.pool_balance).toNat
    if needed > POOLSIZE then (some .bugTopup, st, [])
    else
      let r := read_random_source E st .extrapoll needed 2
      (none, { r.1 with pool_balance := r.1.pool_balance + needed }, [r.2])
  else (none, st, [])

/-- The while (!pool_filled) random_poll() loop of read_pool, bounded by
fuel; each random_poll requests POOLSIZE/5 bytes at level 1 with origin
SLOWPOLL. -/
def rp_poll {σ : Type} (E : Env σ) :
    Nat → PoolState → Option Fatal × PoolState × List Request
  | 0, st => if st.pool_filled then (none, st, []) else (some .pollTimeout, st, [])
  | fuel + 1, st =>
      if st.pool_filled then (none, st, [])
      else
        let r := read_random_source E st .slowpoll (POOLSIZE / 5) 1
        let q := rp_poll E fuel r.1
        (q.1, q.2.1, r.2 :: q.2.2)

/-- do_fast_random_poll: the fast gatherer and the platform time, clock
and resource samples are modelled as the list of byte buffers the
environment delivers, each folded with origin FASTPOLL. -/
def do_fast_random_poll {σ : Type} (E : Env σ) (st : PoolState) : PoolState :=
  E.fastData.foldl (fun s b => add_randomness E s b .fastpoll) st

/-- The word-wise keypool derivation loop shared by read_pool and
_gcry_rngcsprng_update_seed_file: each of k unsigned-long words (8-byte
little-endian spans) is the corresponding source word plus ADD_VALUE,
wrapping at 2^64.  Returns the derived 8k-byte value. -/
def transformWords : Nat → Nat → Nat
  | 0, _ => 0
  | k + 1, src =>
      (getBytes src 0 8 + ADD_VALUE) % 2 ^ 64
        + transformWords k (src / 2 ^ 64) * 2 ^ 64

/-- The delivery loop of read_pool: copy keypool bytes starting at
pool_readpos (wrapping at POOLSIZE) and decrement pool_balance per byte. -/
def rp_deliver : Nat → PoolState → List Nat → PoolState × List Nat
  | 0, st, acc => (st, acc)
  | k + 1, st, acc =>
      let b := getByte st.keypool st.pool_readpos
      let rp := st.pool_readpos + 1
      let rp := if rp ≥ POOLSIZE then 0 else rp
      rp_deliver k
        { st with pool_readpos := rp, pool_balance := st.pool_balance - 1 }
        (acc ++ [b])

/-- The mix-if-dirty step of read_pool: mix rndpool unless a mix just
happened with no accumulation after it. -/
def rp_mixif {σ : Type} (E : Env σ) (st : PoolState) : PoolState :=
  if ¬st.just_mixed then
    let mr := mix_pool E true st.failsafe_digest st.failsafe_digest_valid
                st.rndpool
    { st with rndpool := mr.1, failsafe_digest := mr.2.1,
              failsafe_digest_valid := mr.2.2 }
  else st

/-- The keypool derivation of read_pool and update_seed_file: each of the
POOLWORDS unsigned-long words of keypool becomes the corresponding
rndpool word plus ADD_VALUE. -/
def rp_derive (st : PoolState) : PoolState :=
  { st with
    keypool := setBytes st.keypool 0 POOLSIZE
      (transformWords POOLWORDS st.rndpool) }

/-- The double mix of read_pool and update_seed_file: mix rndpool (as
rndpool, updating the failsafe digest) and then keypool. -/
def rp_doublemix {σ : Type} (E : Env σ) (st : PoolState) : PoolState :=
  let mr := mix_pool E true st.failsafe_digest st.failsafe_digest_valid
              st.rndpool
  let st := { st with rndpool := mr.1, failsafe_digest := mr.2.1,
                      failsafe_digest_valid := mr.2.2 }
  let mk := mix_pool E false st.failsafe_digest st.failsafe_digest_valid
              st.keypool
  { st with keypool := mk.1 }

/-- The balance clamp after delivery: a negative pool_balance is reset
to zero. -/
def rp_clamp (st : PoolState) : PoolState :=
  if st.pool_balance < 0 then { st with pool_balance := 0 } else st

/-- The tail of read_pool after the seeding steps: fast poll, fold the
recorded pid (origin INIT), mix rndpool unless just_mixed, derive the
POOLWORDS keypool words via ADD_VALUE, mix both pools, deliver the
requested bytes from pool_readpos, clamp a negative balance and clear
the POOLSIZE byte region of keypool.  Returns the new state and the
delivered bytes. -/
def rp_finish {σ : Type} (E : Env σ) (pid : List Nat) (length : Nat)
    (st : PoolState) : PoolState × List Nat :=
  let st := do_fast_random_poll E st
  let st := add_randomness E st pid .init
  let st := rp_mixif E st
  let st := rp_derive st
  let st := rp_doublemix E st
  let d := rp_deliver length st []
  let st := rp_clamp d.1
  ({ st with keypool := setBytes st.keypool 0 POOLSIZE 0 }, d.2)

/-- read_pool from random-csprng.c.  The pid is constant for the duration
of the call in this sequential model, so the fork post-check never fires
and the retry loop runs exactly once. -/
def read_pool {σ : Type} (E : Env σ) (fuel : Nat) (pid : List Nat)
    (length lvl : Nat) (st : PoolState) : RPResult :=
  let st := rp_forkpre E pid st
  if length > POOLSIZE then ⟨some .oversize, st, [], []⟩
  else
    let s1 := rp_seed E st
    match rp_topup1 E length lvl s1.1 with
    | (some f, st2, r2) => ⟨some f, st2, s1.2 ++ r2, []⟩
    | (none, st2, r2) =>
      match rp_topup2 E length lvl st2 with
      | (some f, st3, r3) => ⟨some f, st3, s1.2 ++ r2 ++ r3, []⟩
      | (none, st3, r3) =>
        match rp_poll E fuel st3 with
        | (some f, st4, r4) => ⟨some f, st4, s1.2 ++ r2 ++ r3 ++ r4, []⟩
        | (none, st4, r4) =>
          let fin := rp_finish E pid length st4
          ⟨none, fin.1, s1.2 ++ r2 ++ r3 ++ r4, fin.2⟩

/-- Result of the outward randomize wrapper: fatal outcome, final state,
the caller's buffer after the call, and the lengths of the successive
read_pool calls made by the chunking loop. -/
structure RandResult where
  fatal : Option Fatal
  st : PoolState
  buffer : List Nat
  chunkSizes : List Nat
deriving Repr

/-- The chunking loop of _gcry_rngcsprng_randomize: while bytes remain,
call read_pool for min(length, POOLSIZE) bytes and advance.  The loop is
made structurally recursive on a step bound; each iteration consumes at
least one byte, so a bound of length steps is exact.  Returns the fatal
outcome, the final state, the bytes written and the chunk sizes. -/
def randomize_go {σ : Type} (E : Env σ) (fuel : Nat) (pid : List Nat)
    (lvl : Nat) : Nat → Nat → PoolState →
    Option Fatal × PoolState × List Nat × List Nat
  | 0, _, st => (none, st, [], [])
  | _ + 1, 0, st => (none, st, [], [])
  | steps + 1, length, st =>
      let n := min length POOLSIZE
      let r := read_pool E fuel pid n lvl st
      match r.fatal with
      | some f => (some f, r.st, r.out, [n])
      | none =>
          let q := randomize_go E fuel pid lvl steps (length - n) r.st
          (q.1, q.2.1, r.out ++ q.2.2.1, n :: q.2.2.2)

/-- The chunking loop of _gcry_rngcsprng_randomize, entered with the
exact step bound. -/
def randomize_loop {σ : Type} (E : Env σ) (fuel : Nat) (pid : List Nat)
    (lvl : Nat) (length : Nat) (st : PoolState) :
    Option Fatal × PoolState × List Nat × List Nat :=
  randomize_go E fuel pid lvl length length st

/-- _gcry_rngcsprng_randomize: degrade VERY_STRONG to STRONG under
quick_test, mask the level to two bits, then fill the caller's buffer in
chunks of at most POOLSIZE bytes via read_pool. -/
def randomize {σ : Type} (E : Env σ) (fuel : Nat) (pid : List Nat)
    (buffer : List Nat) (length lvl : Nat) (st : PoolState) : RandResult :=
  let lvl := if E.quick_test ∧ lvl > 1 then 1 else lvl
  let lvl := lvl % 4
  let q := randomize_loop E fuel pid lvl length st
  ⟨q.1, q.2.1, q.2.2.1 ++ buffer.drop q.2.2.1.length, q.2.2.2⟩

/-- Return value of _gcry_rngcsprng_add_bytes. -/
inductive GcryResult where
  | ok
  | invArg
deriving DecidableEq, Repr

/-- The chunking loop of _gcry_rngcsprng_add_bytes: fold the buffer into
the pool via add_randomness with origin EXTERNAL, at most POOLSIZE bytes
at a time.  Structurally recursive on a step bound; each iteration
consumes at least one byte. -/
def add_chunks_go {σ : Type} (E : Env σ) :
    Nat → List Nat → PoolState → PoolState
  | 0, _, st => st
  | steps + 1, bs, st =>
      if bs.length = 0 then st
      else
        let n := min bs.length POOLSIZE
        add_chunks_go E steps (bs.drop n)
          (add_randomness E st (bs.take n) .external)

/-- The chunking loop of _gcry_rngcsprng_add_bytes, entered with the
exact step bound. -/
def add_chunks {σ : Type} (E : Env σ) (bs : List Nat) (st : PoolState) :
    PoolState :=
  add_chunks_go E bs.length bs st

/-- _gcry_rngcsprng_add_bytes: clamp the quality (-1 means unknown and
becomes 35), reject a null buffer, take the shortcut for empty buffers or
clamped quality below 10, otherwise fold in chunks. -/
def add_bytes {σ : Type} (E : Env σ) (buf : Option (List Nat))
    (quality : Int) (st : PoolState) : GcryResult × PoolState :=
  let q : Int :=
    if quality = -1 then 35
    else if quality > 100 then 100
    else if quality < 0 then 0
    else quality
  match buf with
  | none => (.invArg, st)
  | some bs =>
      if bs.length = 0 ∨ q < 10 then (.ok, st)
      else (.ok, add_chunks E bs st)

/-- _gcry_rngcsprng_update_seed_file (its pool-state part): when the pool
is filled and updating is allowed, derive keypool word-wise via ADD_VALUE
and mix both pools; the file write itself does not touch the state. -/
def update_seed_file {σ : Type} (E : Env σ) (st : PoolState) : PoolState :=
  if ¬st.pool_filled ∨ ¬st.allow_seed_file_update then st
  else rp_doublemix E (rp_derive st)

/-- _gcry_rngcsprng_close_fds: zero the cursors, flags and balance (the
buffer deallocation is not part of the modelled state). -/
def close_fds (st : PoolState) : PoolState :=
  { st with pool_writepos := 0, pool_readpos := 0, pool_filled := false,
            pool_filled_counter := 0, did_initial_extra_seeding := false,
            pool_balance := 0, just_mixed := false }

/-- A concrete deterministic environment used to evaluate the model on
explicit inputs: the test hash stub suggested by the design document
(mix_block copies the first DIGESTLEN bytes of its input), a zero hash,
and a slow gatherer delivering 0x5A bytes. -/
def stubEnv : Env Unit where
  mdInit := ()
  mixBlock := fun _ b => ((), b % 256 ^ DIGESTLEN)
  hashBuffer := fun _ => 0
  slowGather := fun _ n _ => List.replicate n 90
  jitter := true
  fastData := []
  seedBytes := none
  pidBytes := [3]
  timeBytes := [4]
  clockBytes := [5]
  quick_test := false

/-- The module state right after full initialization: zeroed buffers,
zero cursors, cleared flags. -/
def zeroState : PoolState where
  rndpool := 0
  keypool := 0
  pool_writepos := 0
  pool_readpos := 0
  pool_filled := false
  pool_filled_counter := 0
  did_initial_extra_seeding := false
  pool_balance := 0
  just_mixed := false
  failsafe_digest := 0
  failsafe_digest_valid := false
  my_pid := none
  allow_seed_file_update := false
  addbytes := 0
  naddbytes := 0

/-- A state whose pool has been filled: used to evaluate extractions on
concrete inputs. -/
def filledState : PoolState :=
  { zeroState with pool_filled := true, just_mixed := true,
                   pool_filled_counter := POOLSIZE }

/-- The stub environment with a configured, valid, all-zero seed file. -/
def seededEnv : Env Unit :=
  { stubEnv with seedBytes := some (List.replicate POOLSIZE 0) }

/-- Written from the words of the claim for the mixer loop: for every
iteration n = 1 .. POOLBLOCKS-1, with p = n * DIGESTLEN, the 64-byte
input block is read starting at offset p (wrapping at POOLSIZE) and the
digest is written to pool[p .. p + DIGESTLEN). -/
def mix_loop_claimed {σ : Type} (E : Env σ) : Nat → σ → Nat → Nat → Nat
  | 0, _, _, pool => pool
  | k + 1, md, n, pool =>
      let p := n * DIGESTLEN
      let block := readBlock pool p
      let r := E.mixBlock md block
      let pool := setBytes pool POOLSIZE BLOCKLEN (mixedScratch r.2 block)
      let pool := setBytes pool p DIGESTLEN r.2
      mix_loop_claimed E k r.1 (n + 1) pool

/-- The mixer as the claim describes it: identical to mix_pool except
that the loop reads each block at n * DIGESTLEN. -/
def mix_pool_claimed {σ : Type} (E : Env σ) (isRnd : Bool) (fsd : Nat)
    (fsv : Bool) (pool : Nat) : Nat × Nat × Bool :=
  let hb := getBytes pool (POOLSIZE - DIGESTLEN) DIGESTLEN
            + getBytes pool 0 (BLOCKLEN - DIGESTLEN) * 256 ^ DIGESTLEN
  let r := E.mixBlock E.mdInit hb
  let pool := setBytes pool POOLSIZE BLOCKLEN (mixedScratch r.2 hb)
  let pool := setBytes pool 0 DIGESTLEN r.2
  let pool :=
    if fsv ∧ isRnd then
      setBytes pool 0 DIGESTLEN (Nat.xor (getBytes pool 0 DIGESTLEN) fsd)
    else pool
  let pool := mix_loop_claimed E (POOLBLOCKS - 1) r.1 1 pool
  if isRnd then (pool, E.hashBuffer (getBytes pool 0 POOLSIZE), true)
  else (pool, fsd, fsv)

/-- The amended mixer loop: for every iteration n = 1 .. POOLBLOCKS-1,
the 64-byte input block is read starting at offset (n - 1) * DIGESTLEN
(wrapping at POOLSIZE) and the digest is written to pool[n * DIGESTLEN ..
n * DIGESTLEN + DIGESTLEN). -/
def mix_loop_shifted {σ : Type} (E : Env σ) : Nat → σ → Nat → Nat → Nat
  | 0, _, _, pool => pool
  | k + 1, md, n, pool =>
      let block := readBlock pool ((n - 1) * DIGESTLEN)
      let r := E.mixBlock md block
      let pool := setBytes pool POOLSIZE BLOCKLEN (mixedScratch r.2 block)
      let pool := setBytes pool (n * DIGESTLEN) DIGESTLEN r.2
      mix_loop_shifted E k r.1 (n + 1) pool

/-- The mixer as amended: identical to mix_pool except that the loop is
written with the explicit read offset (n - 1) * DIGESTLEN and write
offset n * DIGESTLEN. -/
def mix_pool_amended {σ : Type} (E : Env σ) (isRnd : Bool) (fsd : Nat)
    (fsv : Bool) (pool : Nat) : Nat × Nat × Bool :=
  let hb := getBytes pool (POOLSIZE - DIGESTLEN) DIGESTLEN
            + getBytes pool 0 (BLOCKLEN - DIGESTLEN) * 256 ^ DIGESTLEN
  let r := E.mixBlock E.mdInit hb
  let pool := setBytes pool POOLSIZE BLOCKLEN (mixedScratch r.2 hb)
  let pool := setBytes pool 0 DIGESTLEN r.2
  let pool :=
    if fsv ∧ isRnd then
      setBytes pool 0 DIGESTLEN (Nat.xor (getBytes pool 0 DIGESTLEN) fsd)
    else pool
  let pool := mix_loop_shifted E (POOLBLOCKS - 1) r.1 1 pool
  if isRnd then (pool, E.hashBuffer (getBytes pool 0 POOLSIZE), true)
  else (pool, fsd, fsv)

/-- A pool image whose byte i is i mod 256 (little-endian base-256
value), used as a concrete mixer input. -/
def buildRamp : Nat → Nat
  | 0 => 0
  | k + 1 => k % 256 * 256 ^ k + buildRamp k

/-- The ramp image for the full POOLSIZE + BLOCKLEN buffer. -/
def rampPool : Nat := buildRamp (POOLSIZE + BLOCKLEN)

/-- The split of a request length into the successive read_pool call
lengths the randomize wrapper produces: min(length, POOLSIZE) repeatedly.
Structurally recursive on a step bound. -/
def chunkDecomp_go : Nat → Nat → List Nat
  | 0, _ => []
  | steps + 1, len =>
      if len = 0 then []
      else min len POOLSIZE :: chunkDecomp_go steps (len - min len POOLSIZE)

/-- The chunk decomposition entered with the exact step bound. -/
def chunkDecomp (len : Nat) : List Nat := chunkDecomp_go len len

/-- The split of a byte buffer into the chunks the add-bytes wrapper
folds: take min(length, POOLSIZE) repeatedly.  Structurally recursive on
a step bound. -/
def chunksOf_go : Nat → List Nat → List (List Nat)
  | 0, _ => []
  | steps + 1, bs =>
      if bs.length = 0 then []
      else bs.take (min bs.length POOLSIZE)
             :: chunksOf_go steps (bs.drop (min bs.length POOLSIZE))

/-- The buffer chunking entered with the exact step bound. -/
def chunksOf (bs : List Nat) : List (List Nat) := chunksOf_go bs.length bs

/-- The cursor invariant of the design document: both cursors lie in
[0, POOLSIZE). -/
def cursors_ok (st : PoolState) : Prop :=
  st.pool_writepos < POOLSIZE ∧ st.pool_readpos < POOLSIZE

end Csprng

namespace Csprng

/-- add_loop changes neither the read cursor, the balance, the extra
seeding flag, the keypool, the recorded pid nor the update flag. -/
theorem add_loop_fields {σ : Type} (E : Env σ) (o : RO) :
    ∀ (buf : List Nat) (count : Nat) (st : PoolState),
      (add_loop E o buf count st).pool_readpos = st.pool_readpos ∧
      (add_loop E o buf count st).pool_balance = st.pool_balance ∧
      (add_loop E o buf count st).did_initial_extra_seeding
        = st.did_initial_extra_seeding ∧
      (add_loop E o buf count st).keypool = st.keypool ∧
      (add_loop E o buf count st).my_pid = st.my_pid ∧
      (add_loop E o buf count st).allow_seed_file_update
        = st.allow_seed_file_update
  | [], count, st => by simp [add_loop]
  | b :: rest, count, st => by
      simp only [add_loop]
      split
      · split
        · exact add_loop_fields E o rest _ _
        · exact add_loop_fields E o rest _ _
      · exact add_loop_fields E o rest _ _

/-- add_loop never clears pool_filled. -/
theorem add_loop_filled_mono {σ : Type} (E : Env σ) (o : RO) :
    ∀ (buf : List Nat) (count : Nat) (st : PoolState),
      st.pool_filled = true → (add_loop E o buf count st).pool_filled = true
  | [], count, st => by simp [add_loop]
  | b :: rest, count, st => by
      intro h
      simp only [add_loop]
      split
      · split
        · next hc =>
            exact absurd h (by simpa using hc.2)
        · exact add_loop_filled_mono E o rest _ _ (by simpa using h)
      · exact add_loop_filled_mono E o rest _ _ (by simpa using h)

/-- For origins below SLOWPOLL, add_loop changes neither pool_filled nor
pool_filled_counter. -/
theorem add_loop_low_origin {σ : Type} (E : Env σ) (o : RO)
    (ho : o.val < RO.slowpoll.val) :
    ∀ (buf : List Nat) (count : Nat) (st : PoolState),
      (add_loop E o buf count st).pool_filled = st.pool_filled ∧
      (add_loop E o buf count st).pool_filled_counter = st.pool_filled_counter
  | [], count, st => by simp [add_loop]
  | b :: rest, count, st => by
      simp only [add_loop]
      split
      · split
        · next hc => exact absurd hc.1 (by omega)
        · exact add_loop_low_origin E o ho rest _ _
      · exact add_loop_low_origin E o ho rest _ _

/-- add_loop keeps the write cursor strictly below POOLSIZE. -/
theorem add_loop_wp {σ : Type} (E : Env σ) (o : RO) :
    ∀ (buf : List Nat) (count : Nat) (st : PoolState),
      st.pool_writepos < POOLSIZE →
      (add_loop E o buf count st).pool_writepos < POOLSIZE
  | [], count, st => by intro h; simpa [add_loop] using h
  | b :: rest, count, st => by
      intro h
      simp only [add_loop]
      split
      · split
        · refine add_loop_wp E o rest _ _ ?_
          simp [POOLSIZE, POOLBLOCKS, DIGESTLEN]
        · refine add_loop_wp E o rest _ _ ?_
          simp [POOLSIZE, POOLBLOCKS, DIGESTLEN]
      · next hg =>
          refine add_loop_wp E o rest _ _ ?_
          simp only [not_le] at hg
          simpa using hg

end Csprng

namespace Csprng

/-- add_randomness does not change the read cursor. -/
theorem add_randomness_readpos {σ : Type} (E : Env σ) (st : PoolState)
    (buf : List Nat) (o : RO) :
    (add_randomness E st buf o).pool_readpos = st.pool_readpos :=
  (add_loop_fields E o buf 0 _).1

/-- add_randomness does not change the balance. -/
theorem add_randomness_balance {σ : Type} (E : Env σ) (st : PoolState)
    (buf : List Nat) (o : RO) :
    (add_randomness E st buf o).pool_balance = st.pool_balance :=
  (add_loop_fields E o buf 0 _).2.1

/-- add_randomness does not change the extra-seeding flag. -/
theorem add_randomness_did {σ : Type} (E : Env σ) (st : PoolState)
    (buf : List Nat) (o : RO) :
    (add_randomness E st buf o).did_initial_extra_seeding
      = st.did_initial_extra_seeding :=
  (add_loop_fields E o buf 0 _).2.2.1

/-- add_randomness does not change the keypool. -/
theorem add_randomness_keypool {σ : Type} (E : Env σ) (st : PoolState)
    (buf : List Nat) (o : RO) :
    (add_randomness E st buf o).keypool = st.keypool :=
  (add_loop_fields E o buf 0 _).2.2.2.1

/-- add_randomness does not change the recorded pid. -/
theorem add_randomness_my_pid {σ : Type} (E : Env σ) (st : PoolState)
    (buf : List Nat) (o : RO) :
    (add_randomness E st buf o).my_pid = st.my_pid :=
  (add_loop_fields E o buf 0 _).2.2.2.2.1

/-- add_randomness never clears pool_filled. -/
theorem add_randomness_filled_mono {σ : Type} (E : Env σ) (st : PoolState)
    (buf : List Nat) (o : RO) (h : st.pool_filled = true) :
    (add_randomness E st buf o).pool_filled = true :=
  add_loop_filled_mono E o buf 0 _ h

/-- With an origin below SLOWPOLL, add_randomness changes neither
pool_filled nor pool_filled_counter. -/
theorem add_randomness_low {σ : Type} (E : Env σ) (st : PoolState)
    (buf : List Nat) (o : RO) (ho : o.val < RO.slowpoll.val) :
    (add_randomness E st buf o).pool_filled = st.pool_filled ∧
    (add_randomness E st buf o).pool_filled_counter = st.pool_filled_counter :=
  add_loop_low_origin E o ho buf 0 _

/-- add_randomness keeps the write cursor strictly below POOLSIZE. -/
theorem add_randomness_wp {σ : Type} (E : Env σ) (st : PoolState)
    (buf : List Nat) (o : RO) (h : st.pool_writepos < POOLSIZE) :
    (add_randomness E st buf o).pool_writepos < POOLSIZE :=
  add_loop_wp E o buf 0 _ h

end Csprng

namespace Csprng

/-- Folding a list of buffers with origin FASTPOLL (the shape of
do_fast_random_poll) preserves the cursors and flags other than the
rndpool content, just_mixed and the statistics. -/
theorem fast_fold_fields {σ : Type} (E : Env σ) :
    ∀ (l : List (List Nat)) (st : PoolState),
      (l.foldl (fun s b => add_randomness E s b .fastpoll) st).pool_readpos
        = st.pool_readpos ∧
      (l.foldl (fun s b => add_randomness E s b .fastpoll) st).pool_balance
        = st.pool_balance ∧
      (l.foldl (fun s b => add_randomness E s b .fastpoll) st).did_initial_extra_seeding
        = st.did_initial_extra_seeding ∧
      (l.foldl (fun s b => add_randomness E s b .fastpoll) st).keypool
        = st.keypool ∧
      (l.foldl (fun s b => add_randomness E s b .fastpoll) st).my_pid
        = st.my_pid ∧
      (l.foldl (fun s b => add_randomness E s b .fastpoll) st).pool_filled
        = st.pool_filled ∧
      (l.foldl (fun s b => add_randomness E s b .fastpoll) st).pool_filled_counter
        = st.pool_filled_counter
  | [], st => ⟨rfl, rfl, rfl, rfl, rfl, rfl, rfl⟩
  | b :: l, st => by
      have ih := fast_fold_fields E l (add_randomness E st b .fastpoll)
      have hlow := add_randomness_low E st b .fastpoll (by decide)
      simp only [List.foldl_cons]
      exact ⟨by rw [ih.1, add_randomness_readpos],
             by rw [ih.2.1, add_randomness_balance],
             by rw [ih.2.2.1, add_randomness_did],
             by rw [ih.2.2.2.1, add_randomness_keypool],
             by rw [ih.2.2.2.2.1, add_randomness_my_pid],
             by rw [ih.2.2.2.2.2.1, hlow.1],
             by rw [ih.2.2.2.2.2.2, hlow.2]⟩

/-- Folding FASTPOLL buffers keeps the write cursor below POOLSIZE. -/
theorem fast_fold_wp {σ : Type} (E : Env σ) :
    ∀ (l : List (List Nat)) (st : PoolState),
      st.pool_writepos < POOLSIZE →
      (l.foldl (fun s b => add_randomness E s b .fastpoll) st).pool_writepos
        < POOLSIZE
  | [], st => fun h => h
  | b :: l, st => fun h => by
      simp only [List.foldl_cons]
      exact fast_fold_wp E l _ (add_randomness_wp E st b .fastpoll h)

end Csprng

namespace Csprng

/-- do_fast_random_poll preserves the cursors and flags other than the
rndpool content, just_mixed and the statistics. -/
theorem do_fast_random_poll_fields {σ : Type} (E : Env σ) (st : PoolState) :
    (do_fast_random_poll E st).pool_readpos = st.pool_readpos ∧
    (do_fast_random_poll E st).pool_balance = st.pool_balance ∧
    (do_fast_random_poll E st).did_initial_extra_seeding
      = st.did_initial_extra_seeding ∧
    (do_fast_random_poll E st).keypool = st.keypool ∧
    (do_fast_random_poll E st).my_pid = st.my_pid ∧
    (do_fast_random_poll E st).pool_filled = st.pool_filled ∧
    (do_fast_random_poll E st).pool_filled_counter = st.pool_filled_counter :=
  fast_fold_fields E E.fastData st

/-- do_fast_random_poll keeps the write cursor below POOLSIZE. -/
theorem do_fast_random_poll_wp {σ : Type} (E : Env σ) (st : PoolState)
    (h : st.pool_writepos < POOLSIZE) :
    (do_fast_random_poll E st).pool_writepos < POOLSIZE :=
  fast_fold_wp E E.fastData st h

end Csprng

namespace Csprng

/-- Characterization of a successful seed-file load: the gather request
list is exactly one INIT request at level 1 for 128 (jitter) or 32 bytes,
and all INIT-origin folding leaves pool_filled, the counter, the read
cursor, the balance, the extra-seeding flag and the keypool unchanged. -/
theorem read_seed_file_some {σ : Type} (E : Env σ) (st : PoolState)
    (buf : List Nat) (h : E.seedBytes = some buf) :
    (read_seed_file E st).1 = true ∧
    (read_seed_file E st).2.2 = [⟨RO.init, if E.jitter then 128 else 32, 1⟩] ∧
    (read_seed_file E st).2.1.pool_filled = st.pool_filled ∧
    (read_seed_file E st).2.1.pool_filled_counter = st.pool_filled_counter ∧
    (read_seed_file E st).2.1.pool_readpos = st.pool_readpos ∧
    (read_seed_file E st).2.1.pool_balance = st.pool_balance ∧
    (read_seed_file E st).2.1.did_initial_extra_seeding
      = st.did_initial_extra_seeding ∧
    (read_seed_file E st).2.1.keypool = st.keypool := by
  unfold read_seed_file read_random_source
  rw [h]
  refine ⟨rfl, rfl, ?_, ?_, ?_, ?_, ?_, ?_⟩ <;>
    simp only [add_randomness_readpos, add_randomness_balance,
      add_randomness_did, add_randomness_keypool,
      (add_randomness_low E _ _ .init (by decide)).1,
      (add_randomness_low E _ _ .init (by decide)).2]

/-- A successful seed-file load keeps the write cursor below POOLSIZE. -/
theorem read_seed_file_wp {σ : Type} (E : Env σ) (st : PoolState)
    (h : st.pool_writepos < POOLSIZE) :
    (read_seed_file E st).2.1.pool_writepos < POOLSIZE := by
  unfold read_seed_file read_random_source
  cases hs : E.seedBytes with
  | none => simpa using h
  | some buf =>
      simp only []
      exact add_randomness_wp E _ _ _ (add_randomness_wp E _ _ _
        (add_randomness_wp E _ _ _ (add_randomness_wp E _ _ _
          (add_randomness_wp E _ _ _ h))))

/-- The fork pre-check only touches my_pid, just_mixed, the rndpool
content, the write cursor and the statistics. -/
theorem rp_forkpre_fields {σ : Type} (E : Env σ) (pid : List Nat)
    (st : PoolState) :
    (rp_forkpre E pid st).pool_readpos = st.pool_readpos ∧
    (rp_forkpre E pid st).pool_balance = st.pool_balance ∧
    (rp_forkpre E pid st).did_initial_extra_seeding
      = st.did_initial_extra_seeding ∧
    (rp_forkpre E pid st).keypool = st.keypool ∧
    (rp_forkpre E pid st).pool_filled = st.pool_filled ∧
    (rp_forkpre E pid st).pool_filled_counter = st.pool_filled_counter := by
  unfold rp_forkpre
  cases st.my_pid with
  | none => exact ⟨rfl, rfl, rfl, rfl, rfl, rfl⟩
  | some p =>
      by_cases hp : p = pid
      · simp [hp]
      · simp only [hp, if_false]
        exact ⟨add_randomness_readpos E _ _ _, add_randomness_balance E _ _ _,
               add_randomness_did E _ _ _, add_randomness_keypool E _ _ _,
               (add_randomness_low E _ _ .init (by decide)).1,
               (add_randomness_low E _ _ .init (by decide)).2⟩

/-- The fork pre-check keeps the write cursor below POOLSIZE. -/
theorem rp_forkpre_wp {σ : Type} (E : Env σ) (pid : List Nat)
    (st : PoolState) (h : st.pool_writepos < POOLSIZE) :
    (rp_forkpre E pid st).pool_writepos < POOLSIZE := by
  unfold rp_forkpre
  cases st.my_pid with
  | none => exact h
  | some p =>
      by_cases hp : p = pid
      · simpa [hp] using h
      · simp only [hp, if_false]
        exact add_randomness_wp E _ _ _ h

/-- The seed-on-demand step: pool_filled afterwards is pool_filled before
or the success of the seed-file load; the counter, cursors, balance,
extra-seeding flag and keypool are unchanged. -/
theorem rp_seed_fields {σ : Type} (E : Env σ) (st : PoolState) :
    (rp_seed E st).1.pool_filled
      = (st.pool_filled || E.seedBytes.isSome) ∧
    (rp_seed E st).1.pool_filled_counter = st.pool_filled_counter ∧
    (rp_seed E st).1.pool_readpos = st.pool_readpos ∧
    (rp_seed E st).1.pool_balance = st.pool_balance ∧
    (rp_seed E st).1.did_initial_extra_seeding
      = st.did_initial_extra_seeding ∧
    (rp_seed E st).1.keypool = st.keypool := by
  unfold rp_seed
  by_cases hf : st.pool_filled
  · simp [hf]
  · cases hs : E.seedBytes with
    | none =>
        have : read_seed_file E st = (false, st, []) := by
          unfold read_seed_file; rw [hs]
        simp [hf, this]
    | some buf =>
        have h := read_seed_file_some E st buf hs
        simp only [hf, if_false, h.1, if_true, Bool.false_or, hs,
          Option.isSome_some]
        exact ⟨rfl, h.2.2.2.1, h.2.2.2.2.1, h.2.2.2.2.2.1,
               h.2.2.2.2.2.2.1, h.2.2.2.2.2.2.2⟩

/-- The seed-on-demand step keeps the write cursor below POOLSIZE. -/
theorem rp_seed_wp {σ : Type} (E : Env σ) (st : PoolState)
    (h : st.pool_writepos < POOLSIZE) :
    (rp_seed E st).1.pool_writepos < POOLSIZE := by
  unfold rp_seed
  by_cases hf : st.pool_filled
  · simpa [hf] using h
  · have hw := read_seed_file_wp E st h
    by_cases hl : (read_seed_file E st).1
    · simpa [hf, hl] using hw
    · simpa [hf, hl] using hw

/-- Every request the seed-on-demand step makes has origin INIT. -/
theorem rp_seed_reqs {σ : Type} (E : Env σ) (st : PoolState) :
    ∀ q ∈ (rp_seed E st).2, q.origin = RO.init := by
  unfold rp_seed
  by_cases hf : st.pool_filled
  · simp [hf]
  · cases hs : E.seedBytes with
    | none =>
        have : read_seed_file E st = (false, st, []) := by
          unfold read_seed_file; rw [hs]
        simp [hf, this]
    | some buf =>
        have h := read_seed_file_some E st buf hs
        by_cases hl : (read_seed_file E st).1
        · simp only [hf, if_false, hl, if_true, h.2.1]
          intro q hq
          simp at hq
          rw [hq]
        · rw [h.1] at hl; exact absurd rfl hl

end Csprng

namespace Csprng

/-- Behavior of the first-time very-strong extra seeding on its intended
path: level 2, flag still clear, request within the pool size.  Exactly
one EXTRAPOLL request of max(length, 16) bytes at level 2 is made, the
balance becomes max(length, 16) and the flag is set. -/
theorem rp_topup1_spec {σ : Type} (E : Env σ) (length : Nat) (st : PoolState)
    (hd : st.did_initial_extra_seeding = false) (hl : length ≤ POOLSIZE) :
    (rp_topup1 E length 2 st).1 = none ∧
    (rp_topup1 E length 2 st).2.2 = [⟨RO.extrapoll, max length 16, 2⟩] ∧
    (rp_topup1 E length 2 st).2.1.pool_balance = ((max length 16 : Nat) : Int) ∧
    (rp_topup1 E length 2 st).2.1.did_initial_extra_seeding = true := by
  simp only [rp_topup1, read_random_source]
  split
  case isFalse hcond => exact absurd ⟨by trivial, by simp [hd]⟩ hcond
  by_cases h16 : length < 16
  · have hmax : max length 16 = 16 := Nat.max_eq_right (Nat.le_of_lt h16)
    rw [if_pos h16]
    refine ⟨rfl, by rw [hmax], ?_, rfl⟩
    rw [add_randomness_balance, hmax]
    simp
  · have hmax : max length 16 = length := Nat.max_eq_left (Nat.le_of_not_lt h16)
    have hq : ¬ length > POOLSIZE := by omega
    rw [if_neg h16, if_neg hq]
    refine ⟨rfl, by rw [hmax], ?_, rfl⟩
    rw [add_randomness_balance, hmax]
    simp

/-- The first-time extra seeding never hits its BUG() when the request
is within the pool size. -/
theorem rp_topup1_none {σ : Type} (E : Env σ) (length lvl : Nat)
    (st : PoolState) (hl : length ≤ POOLSIZE) :
    (rp_topup1 E length lvl st).1 = none := by
  simp only [rp_topup1, read_random_source]
  split
  · split
    · rfl
    · have hq : ¬ length > POOLSIZE := by omega
      rw [if_neg hq]
  · rfl

/-- The first-time extra seeding preserves the read cursor, the keypool,
pool_filled (monotone) and the write-cursor bound. -/
theorem rp_topup1_fields {σ : Type} (E : Env σ) (length lvl : Nat)
    (st : PoolState) :
    (rp_topup1 E length lvl st).2.1.pool_readpos = st.pool_readpos ∧
    (rp_topup1 E length lvl st).2.1.keypool = st.keypool ∧
    (st.pool_filled = true →
      (rp_topup1 E length lvl st).2.1.pool_filled = true) ∧
    (st.pool_writepos < POOLSIZE →
      (rp_topup1 E length lvl st).2.1.pool_writepos < POOLSIZE) := by
  simp only [rp_topup1, read_random_source]
  split
  · split
    · exact ⟨add_randomness_readpos E _ _ _, add_randomness_keypool E _ _ _,
             fun h => add_randomness_filled_mono E _ _ _ h,
             fun h => add_randomness_wp E _ _ _ h⟩
    · split
      · exact ⟨rfl, rfl, fun h => h, fun h => h⟩
      · exact ⟨add_randomness_readpos E _ _ _, add_randomness_keypool E _ _ _,
               fun h => add_randomness_filled_mono E _ _ _ h,
               fun h => add_randomness_wp E _ _ _ h⟩
  · exact ⟨rfl, rfl, fun h => h, fun h => h⟩

/-- The extra-seeding flag is never cleared by the first-time extra
seeding. -/
theorem rp_topup1_did_mono {σ : Type} (E : Env σ) (length lvl : Nat)
    (st : PoolState) (h : st.did_initial_extra_seeding = true) :
    (rp_topup1 E length lvl st).2.1.did_initial_extra_seeding = true := by
  simp only [rp_topup1, read_random_source]
  split
  · split
    · rfl
    · split
      · exact h
      · rfl
  · exact h

/-- The balance top-up does nothing when the level is not 2 or the
balance already covers the request. -/
theorem rp_topup2_skip {σ : Type} (E : Env σ) (length lvl : Nat)
    (st : PoolState) (h : ¬(lvl = 2 ∧ st.pool_balance < (length : Int))) :
    rp_topup2 E length lvl st = (none, st, []) := by
  simp only [rp_topup2]
  rw [if_neg h]

/-- The balance top-up never hits its BUG() when the request is within
the pool size. -/
theorem rp_topup2_none {σ : Type} (E : Env σ) (length lvl : Nat)
    (st : PoolState) (hl : length ≤ POOLSIZE) :
    (rp_topup2 E length lvl st).1 = none := by
  simp only [rp_topup2, read_random_source]
  split
  · next hc =>
      by_cases hb : st.pool_balance < 0
      · rw [if_pos hb]
        dsimp only
        split
        · next hq => exfalso; omega
        · rfl
      · rw [if_neg hb]
        split
        · next hq => exfalso; omega
        · rfl
  · rfl

/-- The balance top-up preserves the read cursor, the extra-seeding flag,
the keypool, pool_filled (monotone) and the write-cursor bound. -/
theorem rp_topup2_fields {σ : Type} (E : Env σ) (length lvl : Nat)
    (st : PoolState) :
    (rp_topup2 E length lvl st).2.1.pool_readpos = st.pool_readpos ∧
    (rp_topup2 E length lvl st).2.1.keypool = st.keypool ∧
    (rp_topup2 E length lvl st).2.1.did_initial_extra_seeding
      = st.did_initial_extra_seeding ∧
    (st.pool_filled = true →
      (rp_topup2 E length lvl st).2.1.pool_filled = true) ∧
    (st.pool_writepos < POOLSIZE →
      (rp_topup2 E length lvl st).2.1.pool_writepos < POOLSIZE) := by
  simp only [rp_topup2, read_random_source]
  split
  · split <;> split
    · exact ⟨rfl, rfl, rfl, fun h => h, fun h => h⟩
    · exact ⟨add_randomness_readpos E _ _ _, add_randomness_keypool E _ _ _,
             add_randomness_did E _ _ _,
             fun h => add_randomness_filled_mono E _ _ _ h,
             fun h => add_randomness_wp E _ _ _ h⟩
    · exact ⟨rfl, rfl, rfl, fun h => h, fun h => h⟩
    · exact ⟨add_randomness_readpos E _ _ _, add_randomness_keypool E _ _ _,
             add_randomness_did E _ _ _,
             fun h => add_randomness_filled_mono E _ _ _ h,
             fun h => add_randomness_wp E _ _ _ h⟩
  · exact ⟨rfl, rfl, rfl, fun h => h, fun h => h⟩

/-- The fatal outcome of the balance top-up is its own BUG, never the
oversize or initial-seeding one. -/
theorem rp_topup2_fatal {σ : Type} (E : Env σ) (length lvl : Nat)
    (st : PoolState) :
    (rp_topup2 E length lvl st).1 = none ∨
    (rp_topup2 E length lvl st).1 = some Fatal.bugTopup := by
  simp only [rp_topup2, read_random_source]
  split
  · split <;> split
    · exact Or.inr rfl
    · exact Or.inl rfl
    · exact Or.inr rfl
    · exact Or.inl rfl
  · exact Or.inl rfl

end Csprng

namespace Csprng

/-- A filled pool exits the slow-poll loop immediately. -/
theorem rp_poll_filled {σ : Type} (E : Env σ) (fuel : Nat) (st : PoolState)
    (h : st.pool_filled = true) : rp_poll E fuel st = (none, st, []) := by
  cases fuel with
  | zero => simp [rp_poll, h]
  | succ n => simp [rp_poll, h]

/-- When the slow-poll loop ends without the fuel running out, the pool
is filled. -/
theorem rp_poll_none_filled {σ : Type} (E : Env σ) :
    ∀ (fuel : Nat) (st : PoolState),
      (rp_poll E fuel st).1 = none → (rp_poll E fuel st).2.1.pool_filled = true
  | 0, st => by
      by_cases h : st.pool_filled
      · simp [rp_poll, h]
      · simp [rp_poll, h]
  | fuel + 1, st => by
      by_cases h : st.pool_filled
      · simp [rp_poll, h]
      · simp only [rp_poll]
        rw [if_neg h]
        exact fun hn => rp_poll_none_filled E fuel _ hn

/-- The slow-poll loop does not change the read cursor, the balance, the
extra-seeding flag or the keypool. -/
theorem rp_poll_fields {σ : Type} (E : Env σ) :
    ∀ (fuel : Nat) (st : PoolState),
      (rp_poll E fuel st).2.1.pool_readpos = st.pool_readpos ∧
      (rp_poll E fuel st).2.1.pool_balance = st.pool_balance ∧
      (rp_poll E fuel st).2.1.did_initial_extra_seeding
        = st.did_initial_extra_seeding ∧
      (rp_poll E fuel st).2.1.keypool = st.keypool
  | 0, st => by
      by_cases h : st.pool_filled <;> simp [rp_poll, h]
  | fuel + 1, st => by
      by_cases h : st.pool_filled
      · simp [rp_poll, h]
      · simp only [rp_poll]
        rw [if_neg h]
        have ih := rp_poll_fields E fuel
          (read_random_source E st .slowpoll (POOLSIZE / 5) 1).1
        exact ⟨by rw [ih.1]; exact add_randomness_readpos E _ _ _,
               by rw [ih.2.1]; exact add_randomness_balance E _ _ _,
               by rw [ih.2.2.1]; exact add_randomness_did E _ _ _,
               by rw [ih.2.2.2]; exact add_randomness_keypool E _ _ _⟩

/-- The slow-poll loop keeps the write cursor below POOLSIZE. -/
theorem rp_poll_wp {σ : Type} (E : Env σ) :
    ∀ (fuel : Nat) (st : PoolState),
      st.pool_writepos < POOLSIZE →
      (rp_poll E fuel st).2.1.pool_writepos < POOLSIZE
  | 0, st => by
      intro h
      by_cases hf : st.pool_filled <;> simpa [rp_poll, hf] using h
  | fuel + 1, st => by
      intro h
      by_cases hf : st.pool_filled
      · simpa [rp_poll, hf] using h
      · simp only [rp_poll]
        rw [if_neg hf]
        exact rp_poll_wp E fuel _ (add_randomness_wp E _ _ _ h)

/-- Every request the slow-poll loop makes has origin SLOWPOLL. -/
theorem rp_poll_reqs {σ : Type} (E : Env σ) :
    ∀ (fuel : Nat) (st : PoolState),
      ∀ q ∈ (rp_poll E fuel st).2.2, q.origin = RO.slowpoll
  | 0, st => by
      by_cases h : st.pool_filled <;> simp [rp_poll, h]
  | fuel + 1, st => by
      by_cases h : st.pool_filled
      · simp [rp_poll, h]
      · simp only [rp_poll]
        rw [if_neg h]
        intro q hq
        rcases List.mem_cons.mp hq with h1 | h2
        · rw [h1]; rfl
        · exact rp_poll_reqs E fuel _ q h2

/-- The fatal outcome of the slow-poll loop can only be the timeout. -/
theorem rp_poll_fatal {σ : Type} (E : Env σ) :
    ∀ (fuel : Nat) (st : PoolState),
      (rp_poll E fuel st).1 = none ∨
      (rp_poll E fuel st).1 = some Fatal.pollTimeout
  | 0, st => by
      by_cases h : st.pool_filled <;> simp [rp_poll, h]
  | fuel + 1, st => by
      by_cases h : st.pool_filled
      · simp [rp_poll, h]
      · simp only [rp_poll]
        rw [if_neg h]
        exact rp_poll_fatal E fuel _

/-- The delivery loop touches only the read cursor, the balance and the
delivered bytes. -/
theorem rp_deliver_fields :
    ∀ (k : Nat) (st : PoolState) (acc : List Nat),
      (rp_deliver k st acc).1.pool_writepos = st.pool_writepos ∧
      (rp_deliver k st acc).1.pool_filled = st.pool_filled ∧
      (rp_deliver k st acc).1.pool_filled_counter = st.pool_filled_counter ∧
      (rp_deliver k st acc).1.did_initial_extra_seeding
        = st.did_initial_extra_seeding ∧
      (rp_deliver k st acc).1.keypool = st.keypool ∧
      (rp_deliver k st acc).1.my_pid = st.my_pid
  | 0, st, acc => ⟨rfl, rfl, rfl, rfl, rfl, rfl⟩
  | k + 1, st, acc => by
      simp only [rp_deliver]
      exact rp_deliver_fields k _ _

/-- The delivery loop advances the read cursor by the number of
delivered bytes, modulo POOLSIZE. -/
theorem rp_deliver_readpos :
    ∀ (k : Nat) (st : PoolState) (acc : List Nat),
      st.pool_readpos < POOLSIZE →
      (rp_deliver k st acc).1.pool_readpos
        = (st.pool_readpos + k) % POOLSIZE
  | 0, st, acc => by
      intro h
      simpa [rp_deliver] using (Nat.mod_eq_of_lt h).symm
  | k + 1, st, acc => by
      intro h
      simp only [rp_deliver]
      by_cases hw : st.pool_readpos + 1 ≥ POOLSIZE
      · rw [if_pos hw]
        have h0 : (0 : Nat) < POOLSIZE := by decide
        have heq : st.pool_readpos + 1 = POOLSIZE := by omega
        rw [rp_deliver_readpos k _ _ h0]
        have : st.pool_readpos + (k + 1) = POOLSIZE + k := by omega
        rw [this, Nat.zero_add, Nat.add_comm POOLSIZE k, Nat.add_mod_right]
      · rw [if_neg hw]
        have hlt : st.pool_readpos + 1 < POOLSIZE := by omega
        rw [rp_deliver_readpos k _ _ hlt]
        have : st.pool_readpos + 1 + k = st.pool_readpos + (k + 1) := by omega
        rw [this]

/-- The read cursor stays below POOLSIZE through the delivery loop. -/
theorem rp_deliver_readpos_lt :
    ∀ (k : Nat) (st : PoolState) (acc : List Nat),
      st.pool_readpos < POOLSIZE →
      (rp_deliver k st acc).1.pool_readpos < POOLSIZE := by
  intro k st acc h
  rw [rp_deliver_readpos k st acc h]
  exact Nat.mod_lt _ (by decide)

end Csprng

namespace Csprng

set_option maxRecDepth 8000

/-- Overwriting the low L bytes of a buffer with zero makes the low
L-byte span read back as zero. -/
theorem getBytes_setBytes_zero (m L : Nat) :
    getBytes (setBytes m 0 L 0) 0 L = 0 := by
  simp only [getBytes, setBytes, pow_zero, Nat.mod_one, Nat.div_one,
    Nat.zero_mod, Nat.zero_mul, Nat.zero_add, Nat.add_zero, Nat.zero_div]
  exact Nat.mul_mod_left _ _

/-- The mix-if-dirty step changes only rndpool and the failsafe statics. -/
theorem rp_mixif_fields {σ : Type} (E : Env σ) (st : PoolState) :
    (rp_mixif E st).pool_readpos = st.pool_readpos ∧
    (rp_mixif E st).pool_writepos = st.pool_writepos ∧
    (rp_mixif E st).pool_balance = st.pool_balance ∧
    (rp_mixif E st).did_initial_extra_seeding
      = st.did_initial_extra_seeding ∧
    (rp_mixif E st).keypool = st.keypool ∧
    (rp_mixif E st).pool_filled = st.pool_filled := by
  unfold rp_mixif
  split <;> exact ⟨rfl, rfl, rfl, rfl, rfl, rfl⟩

/-- The keypool derivation changes only the keypool. -/
theorem rp_derive_fields (st : PoolState) :
    (rp_derive st).pool_readpos = st.pool_readpos ∧
    (rp_derive st).pool_writepos = st.pool_writepos ∧
    (rp_derive st).pool_balance = st.pool_balance ∧
    (rp_derive st).did_initial_extra_seeding
      = st.did_initial_extra_seeding ∧
    (rp_derive st).pool_filled = st.pool_filled :=
  ⟨rfl, rfl, rfl, rfl, rfl⟩

/-- The double mix changes only the pools and the failsafe statics. -/
theorem rp_doublemix_fields {σ : Type} (E : Env σ) (st : PoolState) :
    (rp_doublemix E st).pool_readpos = st.pool_readpos ∧
    (rp_doublemix E st).pool_writepos = st.pool_writepos ∧
    (rp_doublemix E st).pool_balance = st.pool_balance ∧
    (rp_doublemix E st).did_initial_extra_seeding
      = st.did_initial_extra_seeding ∧
    (rp_doublemix E st).pool_filled = st.pool_filled :=
  ⟨rfl, rfl, rfl, rfl, rfl⟩

/-- The balance clamp changes only the balance. -/
theorem rp_clamp_fields (st : PoolState) :
    (rp_clamp st).pool_readpos = st.pool_readpos ∧
    (rp_clamp st).pool_writepos = st.pool_writepos ∧
    (rp_clamp st).did_initial_extra_seeding
      = st.did_initial_extra_seeding ∧
    (rp_clamp st).keypool = st.keypool ∧
    (rp_clamp st).pool_filled = st.pool_filled := by
  unfold rp_clamp
  split <;> exact ⟨rfl, rfl, rfl, rfl, rfl⟩

/-- The POOLSIZE byte region of keypool is zero after rp_finish (the
final memset). -/
theorem rp_finish_keypool {σ : Type} (E : Env σ) (pid : List Nat)
    (length : Nat) (st : PoolState) :
    getBytes (rp_finish E pid length st).1.keypool 0 POOLSIZE = 0 :=
  getBytes_setBytes_zero _ POOLSIZE

/-- rp_finish never clears pool_filled. -/
theorem rp_finish_filled {σ : Type} (E : Env σ) (pid : List Nat)
    (length : Nat) (st : PoolState) (h : st.pool_filled = true) :
    (rp_finish E pid length st).1.pool_filled = true := by
  show (rp_clamp (rp_deliver length (rp_doublemix E (rp_derive (rp_mixif E
      (add_randomness E (do_fast_random_poll E st) pid .init)))) []).1).pool_filled
    = true
  rw [(rp_clamp_fields _).2.2.2.2,
      (rp_deliver_fields length _ []).2.1,
      (rp_doublemix_fields E _).2.2.2.2,
      (rp_derive_fields _).2.2.2.2,
      (rp_mixif_fields E _).2.2.2.2.2,
      (add_randomness_low E _ pid .init (by decide)).1,
      (do_fast_random_poll_fields E st).2.2.2.2.2.1]
  exact h

/-- rp_finish does not change the extra-seeding flag. -/
theorem rp_finish_did {σ : Type} (E : Env σ) (pid : List Nat)
    (length : Nat) (st : PoolState) :
    (rp_finish E pid length st).1.did_initial_extra_seeding
      = st.did_initial_extra_seeding := by
  show (rp_clamp (rp_deliver length (rp_doublemix E (rp_derive (rp_mixif E
      (add_randomness E (do_fast_random_poll E st) pid .init)))) []).1).did_initial_extra_seeding
    = st.did_initial_extra_seeding
  rw [(rp_clamp_fields _).2.2.1,
      (rp_deliver_fields length _ []).2.2.2.1,
      (rp_doublemix_fields E _).2.2.2.1,
      (rp_derive_fields _).2.2.2.1,
      (rp_mixif_fields E _).2.2.2.1,
      add_randomness_did,
      (do_fast_random_poll_fields E st).2.2.1]

/-- rp_finish keeps the write cursor below POOLSIZE. -/
theorem rp_finish_wp {σ : Type} (E : Env σ) (pid : List Nat)
    (length : Nat) (st : PoolState) (h : st.pool_writepos < POOLSIZE) :
    (rp_finish E pid length st).1.pool_writepos < POOLSIZE := by
  show (rp_clamp (rp_deliver length (rp_doublemix E (rp_derive (rp_mixif E
      (add_randomness E (do_fast_random_poll E st) pid .init)))) []).1).pool_writepos
    < POOLSIZE
  rw [(rp_clamp_fields _).2.1,
      (rp_deliver_fields length _ []).1,
      (rp_doublemix_fields E _).2.1,
      (rp_derive_fields _).2.1,
      (rp_mixif_fields E _).2.1]
  exact add_randomness_wp E _ _ _ (do_fast_random_poll_wp E st h)

/-- rp_finish advances the read cursor by the delivered length, modulo
POOLSIZE. -/
theorem rp_finish_readpos {σ : Type} (E : Env σ) (pid : List Nat)
    (length : Nat) (st : PoolState) (h : st.pool_readpos < POOLSIZE) :
    (rp_finish E pid length st).1.pool_readpos
      = (st.pool_readpos + length) % POOLSIZE := by
  show (rp_clamp (rp_deliver length (rp_doublemix E (rp_derive (rp_mixif E
      (add_randomness E (do_fast_random_poll E st) pid .init)))) []).1).pool_readpos
    = (st.pool_readpos + length) % POOLSIZE
  rw [(rp_clamp_fields _).1]
  rw [rp_deliver_readpos length _ []]
  · rw [(rp_doublemix_fields E _).1, (rp_derive_fields _).1,
        (rp_mixif_fields E _).1, add_randomness_readpos,
        (do_fast_random_poll_fields E st).1]
  · rw [(rp_doublemix_fields E _).1, (rp_derive_fields _).1,
        (rp_mixif_fields E _).1, add_randomness_readpos,
        (do_fast_random_poll_fields E st).1]
    exact h

end Csprng

namespace Csprng

/-- For requests within the pool size, the only way read_pool can go
fatal is the poll loop running out of fuel (the C code would block and
keep polling); in particular neither BUG() fires. -/
theorem read_pool_fatal_cases {σ : Type} (E : Env σ) (fuel : Nat)
    (pid : List Nat) (length lvl : Nat) (st : PoolState)
    (hlen : length ≤ POOLSIZE) :
    (read_pool E fuel pid length lvl st).fatal = none ∨
    (read_pool E fuel pid length lvl st).fatal = some Fatal.pollTimeout := by
  simp only [read_pool]
  rw [if_neg (by omega : ¬ length > POOLSIZE)]
  have h1 := rp_topup1_none E length lvl (rp_seed E (rp_forkpre E pid st)).1 hlen
  split
  · next f st2 r2 heq => rw [heq] at h1; simp at h1
  · next st2 r2 heq =>
      have h2 := rp_topup2_none E length lvl st2 hlen
      split
      · next f st3 r3 heq2 => rw [heq2] at h2; simp at h2
      · next st3 r3 heq2 =>
          have h3 := rp_poll_fatal E fuel st3
          split
          · next f st4 r4 heq3 =>
              rw [heq3] at h3
              simp at h3
              simp [h3]
          · next st4 r4 heq3 => simp

end Csprng

namespace Csprng

/-- The seeding prefix (fork pre-check then seed-on-demand) keeps the
write cursor below POOLSIZE and preserves the read cursor, the balance,
the extra-seeding flag and the keypool. -/
theorem rp_pre_fields {σ : Type} (E : Env σ) (pid : List Nat)
    (st : PoolState) :
    (rp_seed E (rp_forkpre E pid st)).1.pool_readpos = st.pool_readpos ∧
    (rp_seed E (rp_forkpre E pid st)).1.did_initial_extra_seeding
      = st.did_initial_extra_seeding ∧
    (rp_seed E (rp_forkpre E pid st)).1.keypool = st.keypool ∧
    (st.pool_writepos < POOLSIZE →
      (rp_seed E (rp_forkpre E pid st)).1.pool_writepos < POOLSIZE) := by
  have hf := rp_forkpre_fields E pid st
  have hs := rp_seed_fields E (rp_forkpre E pid st)
  exact ⟨by rw [hs.2.2.1, hf.1],
         by rw [hs.2.2.2.2.1, hf.2.2.1],
         by rw [hs.2.2.2.2.2, hf.2.2.2.1],
         fun h => rp_seed_wp E _ (rp_forkpre_wp E pid st h)⟩

/-- After the seeding prefix the pool is marked filled whenever a seed
file image is present. -/
theorem rp_pre_filled {σ : Type} (E : Env σ) (pid : List Nat)
    (st : PoolState) (buf : List Nat) (hs : E.seedBytes = some buf) :
    (rp_seed E (rp_forkpre E pid st)).1.pool_filled = true := by
  have h := (rp_seed_fields E (rp_forkpre E pid st)).1
  rw [h, hs]
  simp

/-- read_pool preserves the cursor invariant in every outcome. -/
theorem read_pool_cursors {σ : Type} (E : Env σ) (fuel : Nat)
    (pid : List Nat) (length lvl : Nat) (st : PoolState)
    (hw : st.pool_writepos < POOLSIZE) (hr : st.pool_readpos < POOLSIZE) :
    (read_pool E fuel pid length lvl st).st.pool_writepos < POOLSIZE ∧
    (read_pool E fuel pid length lvl st).st.pool_readpos < POOLSIZE := by
  simp only [read_pool]
  split
  · exact ⟨rp_forkpre_wp E pid st hw,
           by rw [(rp_forkpre_fields E pid st).1]; exact hr⟩
  · next hov =>
      have hpre := rp_pre_fields E pid st
      have h1f := rp_topup1_fields E length lvl
        (rp_seed E (rp_forkpre E pid st)).1
      split
      · next f st2 r2 heq =>
          have hst2 : st2 = (rp_topup1 E length lvl
              (rp_seed E (rp_forkpre E pid st)).1).2.1 := by rw [heq]
          rw [hst2]
          exact ⟨h1f.2.2.2 (hpre.2.2.2 hw),
                 by rw [h1f.1, hpre.1]; exact hr⟩
      · next st2 r2 heq =>
          have hst2 : st2 = (rp_topup1 E length lvl
              (rp_seed E (rp_forkpre E pid st)).1).2.1 := by rw [heq]
          have hw2 : st2.pool_writepos < POOLSIZE := by
            rw [hst2]; exact h1f.2.2.2 (hpre.2.2.2 hw)
          have hr2 : st2.pool_readpos = st.pool_readpos := by
            rw [hst2, h1f.1, hpre.1]
          have h2f := rp_topup2_fields E length lvl st2
          split
          · next f st3 r3 heq2 =>
              have hst3 : st3 = (rp_topup2 E length lvl st2).2.1 := by
                rw [heq2]
              rw [hst3]
              exact ⟨h2f.2.2.2.2 hw2, by rw [h2f.1, hr2]; exact hr⟩
          · next st3 r3 heq2 =>
              have hst3 : st3 = (rp_topup2 E length lvl st2).2.1 := by
                rw [heq2]
              have hw3 : st3.pool_writepos < POOLSIZE := by
                rw [hst3]; exact h2f.2.2.2.2 hw2
              have hr3 : st3.pool_readpos = st.pool_readpos := by
                rw [hst3, h2f.1, hr2]
              have h3f := rp_poll_fields E fuel st3
              split
              · next f st4 r4 heq3 =>
                  have hst4 : st4 = (rp_poll E fuel st3).2.1 := by rw [heq3]
                  rw [hst4]
                  exact ⟨rp_poll_wp E fuel st3 hw3,
                         by rw [h3f.1, hr3]; exact hr⟩
              · next st4 r4 heq3 =>
                  have hst4 : st4 = (rp_poll E fuel st3).2.1 := by rw [heq3]
                  have hw4 : st4.pool_writepos < POOLSIZE := by
                    rw [hst4]; exact rp_poll_wp E fuel st3 hw3
                  have hr4 : st4.pool_readpos < POOLSIZE := by
                    rw [hst4, h3f.1, hr3]; exact hr
                  refine ⟨rp_finish_wp E pid length st4 hw4, ?_⟩
                  rw [rp_finish_readpos E pid length st4 hr4]
                  exact Nat.mod_lt _ (by decide)

/-- When read_pool returns normally, the read cursor has advanced by the
request length modulo POOLSIZE. -/
theorem read_pool_readpos {σ : Type} (E : Env σ) (fuel : Nat)
    (pid : List Nat) (length lvl : Nat) (st : PoolState)
    (hlen : length ≤ POOLSIZE) (hr : st.pool_readpos < POOLSIZE)
    (hf : (read_pool E fuel pid length lvl st).fatal = none) :
    (read_pool E fuel pid length lvl st).st.pool_readpos
      = (st.pool_readpos + length) % POOLSIZE := by
  revert hf
  simp only [read_pool]
  rw [if_neg (by omega : ¬ length > POOLSIZE)]
  have hpre := rp_pre_fields E pid st
  split
  · next f st2 r2 heq => intro hf; exact absurd hf (by simp)
  · next st2 r2 heq =>
      have hst2 : st2 = (rp_topup1 E length lvl
          (rp_seed E (rp_forkpre E pid st)).1).2.1 := by rw [heq]
      have h1f := rp_topup1_fields E length lvl
        (rp_seed E (rp_forkpre E pid st)).1
      have hr2 : st2.pool_readpos = st.pool_readpos := by
        rw [hst2, h1f.1, hpre.1]
      split
      · next f st3 r3 heq2 => intro hf; exact absurd hf (by simp)
      · next st3 r3 heq2 =>
          have hst3 : st3 = (rp_topup2 E length lvl st2).2.1 := by rw [heq2]
          have hr3 : st3.pool_readpos = st.pool_readpos := by
            rw [hst3, (rp_topup2_fields E length lvl st2).1, hr2]
          split
          · next f st4 r4 heq3 => intro hf; exact absurd hf (by simp)
          · next st4 r4 heq3 =>
              intro hf
              have hst4 : st4 = (rp_poll E fuel st3).2.1 := by rw [heq3]
              have hr4 : st4.pool_readpos = st.pool_readpos := by
                rw [hst4, (rp_poll_fields E fuel st3).1, hr3]
              have hlt : st4.pool_readpos < POOLSIZE := by rw [hr4]; exact hr
              show (rp_finish E pid length st4).1.pool_readpos
                = (st.pool_readpos + length) % POOLSIZE
              rw [rp_finish_readpos E pid length st4 hlt, hr4]

/-- When a seed file image is present and the request is within the pool
size, read_pool leaves the pool marked filled, whatever its outcome. -/
theorem read_pool_filled_seed {σ : Type} (E : Env σ) (fuel : Nat)
    (pid : List Nat) (length lvl : Nat) (st : PoolState) (buf : List Nat)
    (hs : E.seedBytes = some buf) (hlen : length ≤ POOLSIZE) :
    (read_pool E fuel pid length lvl st).st.pool_filled = true := by
  simp only [read_pool]
  rw [if_neg (by omega : ¬ length > POOLSIZE)]
  have hfill := rp_pre_filled E pid st buf hs
  have h1f := rp_topup1_fields E length lvl
    (rp_seed E (rp_forkpre E pid st)).1
  split
  · next f st2 r2 heq =>
      have hst2 : st2 = (rp_topup1 E length lvl
          (rp_seed E (rp_forkpre E pid st)).1).2.1 := by rw [heq]
      rw [hst2]
      exact h1f.2.2.1 hfill
  · next st2 r2 heq =>
      have hst2 : st2 = (rp_topup1 E length lvl
          (rp_seed E (rp_forkpre E pid st)).1).2.1 := by rw [heq]
      have hf2 : st2.pool_filled = true := by rw [hst2]; exact h1f.2.2.1 hfill
      split
      · next f st3 r3 heq2 =>
          have hst3 : st3 = (rp_topup2 E length lvl st2).2.1 := by rw [heq2]
          rw [hst3]
          exact (rp_topup2_fields E length lvl st2).2.2.2.1 hf2
      · next st3 r3 heq2 =>
          have hst3 : st3 = (rp_topup2 E length lvl st2).2.1 := by rw [heq2]
          have hf3 : st3.pool_filled = true := by
            rw [hst3]; exact (rp_topup2_fields E length lvl st2).2.2.2.1 hf2
          split
          · next f st4 r4 heq3 =>
              rw [rp_poll_filled E fuel st3 hf3] at heq3
              exact absurd heq3 (by simp)
          · next st4 r4 heq3 =>
              have hst4 : st4 = (rp_poll E fuel st3).2.1 := by rw [heq3]
              rw [hst4, rp_poll_filled E fuel st3 hf3]
              exact rp_finish_filled E pid length st3 hf3

end Csprng

namespace Csprng

/-- Every chunk the randomize loop requests is between 1 and POOLSIZE
bytes. -/
theorem randomize_go_chunks {σ : Type} (E : Env σ) (fuel : Nat)
    (pid : List Nat) (lvl : Nat) :
    ∀ (steps len : Nat) (st : PoolState),
      ∀ c ∈ (randomize_go E fuel pid lvl steps len st).2.2.2,
        0 < c ∧ c ≤ POOLSIZE
  | 0, len, st => by simp [randomize_go]
  | steps + 1, 0, st => by simp [randomize_go]
  | steps + 1, len + 1, st => by
      simp only [randomize_go]
      split
      · next f heq =>
          intro c hc
          simp only [List.mem_singleton] at hc
          rw [hc]
          constructor
          · have : 0 < POOLSIZE := by decide
            omega
          · exact Nat.min_le_right _ _
      · next heq =>
          intro c hc
          rcases List.mem_cons.mp hc with h1 | h2
          · rw [h1]
            constructor
            · have : 0 < POOLSIZE := by decide
              omega
            · exact Nat.min_le_right _ _
          · exact randomize_go_chunks E fuel pid lvl steps _ _ c h2

/-- The randomize loop can only go fatal through the poll timeout; in
particular the oversize check never fires for its read_pool calls. -/
theorem randomize_go_fatal {σ : Type} (E : Env σ) (fuel : Nat)
    (pid : List Nat) (lvl : Nat) :
    ∀ (steps len : Nat) (st : PoolState),
      (randomize_go E fuel pid lvl steps len st).1 = none ∨
      (randomize_go E fuel pid lvl steps len st).1 = some Fatal.pollTimeout
  | 0, len, st => by simp [randomize_go]
  | steps + 1, 0, st => by simp [randomize_go]
  | steps + 1, len + 1, st => by
      simp only [randomize_go]
      split
      · next f heq =>
          have hc := read_pool_fatal_cases E fuel pid (min (len + 1) POOLSIZE)
            lvl st (Nat.min_le_right _ _)
          rw [heq] at hc
          simp only [Option.some.injEq] at hc
          rcases hc with hc | hc
          · exact absurd hc (by simp)
          · right
            simp [hc]
      · next heq =>
          exact randomize_go_fatal E fuel pid lvl steps _ _

/-- When the randomize loop completes without a fatal, its chunk sizes
are exactly the min-POOLSIZE decomposition of the length. -/
theorem randomize_go_sizes {σ : Type} (E : Env σ) (fuel : Nat)
    (pid : List Nat) (lvl : Nat) :
    ∀ (steps len : Nat) (st : PoolState),
      (randomize_go E fuel pid lvl steps len st).1 = none →
      (randomize_go E fuel pid lvl steps len st).2.2.2
        = chunkDecomp_go steps len
  | 0, len, st => by simp [randomize_go, chunkDecomp_go]
  | steps + 1, 0, st => by simp [randomize_go, chunkDecomp_go]
  | steps + 1, len + 1, st => by
      simp only [randomize_go]
      split
      · next f heq => intro hf; exact absurd hf (by simp)
      · next heq =>
          intro hf
          have hne : ¬ (len + 1 = 0) := by omega
          simp only [chunkDecomp_go, if_neg hne]
          congr 1
          exact randomize_go_sizes E fuel pid lvl steps _ _ hf

/-- The randomize loop preserves the cursor invariant. -/
theorem randomize_go_cursors {σ : Type} (E : Env σ) (fuel : Nat)
    (pid : List Nat) (lvl : Nat) :
    ∀ (steps len : Nat) (st : PoolState),
      st.pool_writepos < POOLSIZE → st.pool_readpos < POOLSIZE →
      (randomize_go E fuel pid lvl steps len st).2.1.pool_writepos < POOLSIZE ∧
      (randomize_go E fuel pid lvl steps len st).2.1.pool_readpos < POOLSIZE
  | 0, len, st => fun hw hr => by simpa [randomize_go] using ⟨hw, hr⟩
  | steps + 1, 0, st => fun hw hr => by simpa [randomize_go] using ⟨hw, hr⟩
  | steps + 1, len + 1, st => fun hw hr => by
      have hc := read_pool_cursors E fuel pid (min (len + 1) POOLSIZE) lvl st
        hw hr
      simp only [randomize_go]
      split
      · next f heq =>
          have : (read_pool E fuel pid (min (len + 1) POOLSIZE) lvl st).st
              = (some f, (read_pool E fuel pid (min (len + 1) POOLSIZE) lvl
                  st).st, (read_pool E fuel pid (min (len + 1) POOLSIZE) lvl
                  st).out).2.1 := rfl
          exact ⟨hc.1, hc.2⟩
      · next heq =>
          exact randomize_go_cursors E fuel pid lvl steps _ _ hc.1 hc.2

/-- The add-bytes chunk loop equals folding add_randomness over the
min-POOLSIZE chunk split of the buffer. -/
theorem add_chunks_go_eq {σ : Type} (E : Env σ) :
    ∀ (steps : Nat) (bs : List Nat) (st : PoolState),
      bs.length ≤ steps →
      add_chunks_go E steps bs st
        = (chunksOf_go steps bs).foldl
            (fun t c => add_randomness E t c .external) st
  | 0, bs, st => by
      intro h
      have : bs = [] := List.length_eq_zero.mp (by omega)
      simp [this, add_chunks_go, chunksOf_go]
  | steps + 1, bs, st => by
      intro h
      by_cases hz : bs.length = 0
      · simp [add_chunks_go, chunksOf_go, hz]
      · simp only [add_chunks_go, chunksOf_go, if_neg hz, List.foldl_cons]
        refine add_chunks_go_eq E steps _ _ ?_
        simp only [List.length_drop]
        have hp : 0 < POOLSIZE := by decide
        omega

/-- Every chunk of the buffer split is at most POOLSIZE bytes. -/
theorem chunksOf_go_le :
    ∀ (steps : Nat) (bs : List Nat),
      ∀ c ∈ chunksOf_go steps bs, c.length ≤ POOLSIZE
  | 0, bs => by simp [chunksOf_go]
  | steps + 1, bs => by
      by_cases hz : bs.length = 0
      · simp [chunksOf_go, hz]
      · simp only [chunksOf_go, if_neg hz]
        intro c hc
        rcases List.mem_cons.mp hc with h1 | h2
        · rw [h1]
          simp only [List.length_take]
          omega
        · exact chunksOf_go_le steps _ c h2

/-- The chunk split concatenates back to the original buffer. -/
theorem chunksOf_go_flatten :
    ∀ (steps : Nat) (bs : List Nat),
      bs.length ≤ steps → (chunksOf_go steps bs).flatten = bs
  | 0, bs => by
      intro h
      have : bs = [] := List.length_eq_zero.mp (by omega)
      simp [this, chunksOf_go]
  | steps + 1, bs => by
      intro h
      by_cases hz : bs.length = 0
      · have : bs = [] := List.length_eq_zero.mp hz
        simp [this, chunksOf_go]
      · simp only [chunksOf_go, if_neg hz, List.flatten_cons]
        rw [chunksOf_go_flatten steps _ (by
          simp only [List.length_drop]
          have hp : 0 < POOLSIZE := by decide
          omega)]
        exact List.take_append_drop _ bs

end Csprng

namespace Csprng

/-- The pointer-carried mixer loop equals the index-carried amended loop:
at iteration n the pointer sits at byte offset (n - 1) * DIGESTLEN. -/
theorem mix_loop_eq_shifted {σ : Type} (E : Env σ) :
    ∀ (k : Nat) (md : σ) (n : Nat) (pool : Nat), 1 ≤ n →
      mix_loop E k md ((n - 1) * DIGESTLEN) pool
        = mix_loop_shifted E k md n pool
  | 0, md, n, pool => fun _ => rfl
  | k + 1, md, n, pool => fun hn => by
      simp only [mix_loop, mix_loop_shifted]
      have h1 : (n - 1) * DIGESTLEN + DIGESTLEN = n * DIGESTLEN := by
        simp only [DIGESTLEN]
        omega
      rw [h1]
      exact mix_loop_eq_shifted E k _ (n + 1) _ (by omega)

/-- The mixer loop entered at pointer offset 0 equals the amended loop
entered at iteration index 1. -/
theorem mix_loop_zero_eq_shifted_one {σ : Type} (E : Env σ) (k : Nat)
    (md : σ) (pool : Nat) :
    mix_loop E k md 0 pool = mix_loop_shifted E k md 1 pool := by
  have h := mix_loop_eq_shifted E k md 1 pool (le_refl 1)
  simpa using h

/-- Boolean emptiness agrees with decidable equality to the empty list. -/
theorem isEmpty_eq_decide (rest : List Nat) :
    rest.isEmpty = decide (rest = []) := by
  cases rest <;> rfl

/-- The accumulator loop equals the claim-worded loop: the code counter
(reset only on credit) and the bytes-since-last-wrap counter agree
whenever a credit can still happen. -/
theorem add_loop_eq_spec {σ : Type} (E : Env σ) (o : RO) :
    ∀ (buf : List Nat) (count sw : Nat) (st : PoolState),
      (o.val ≥ RO.slowpoll.val → ¬st.pool_filled = true → count = sw) →
      add_loop E o buf count st = add_spec_loop E o buf sw st
  | [], count, sw, st => fun _ => rfl
  | b :: rest, count, sw, st => fun h => by
      simp only [add_loop, add_spec_loop]
      dsimp only
      by_cases hw : st.pool_writepos + 1 ≥ POOLSIZE
      · rw [if_pos hw, if_pos hw]
        by_cases hc : o.val ≥ RO.slowpoll.val ∧ ¬st.pool_filled = true
        · rw [if_pos hc, if_pos hc]
          dsimp only
          rw [isEmpty_eq_decide, h hc.1 hc.2]
          exact add_loop_eq_spec E o rest 0 0 _ (fun _ _ => rfl)
        · rw [if_neg hc, if_neg hc]
          dsimp only
          rw [isEmpty_eq_decide]
          refine add_loop_eq_spec E o rest _ 0 _ ?_
          intro hge hnf
          exact absurd ⟨hge, by simpa using hnf⟩ hc
      · rw [if_neg hw, if_neg hw]
        refine add_loop_eq_spec E o rest _ _ _ ?_
        intro hge hnf
        rw [h hge (by simpa using hnf)]

end Csprng

namespace Csprng

/-- Requests none of which has origin EXTRAPOLL vanish under the
EXTRAPOLL filter. -/
theorem filter_extrapoll_nil :
    ∀ (l : List Request), (∀ q ∈ l, q.origin ≠ RO.extrapoll) →
      l.filter (fun q => decide (q.origin = RO.extrapoll)) = []
  | [] => fun _ => rfl
  | q :: l => fun h => by
      have hq := h q (by simp)
      simp only [List.filter_cons]
      rw [if_neg (by simpa using hq)]
      exact filter_extrapoll_nil l (fun p hp => h p (by simp [hp]))

/-- The add-bytes chunk loop preserves the cursor invariant. -/
theorem add_chunks_go_cursors {σ : Type} (E : Env σ) :
    ∀ (steps : Nat) (bs : List Nat) (st : PoolState),
      st.pool_writepos < POOLSIZE → st.pool_readpos < POOLSIZE →
      (add_chunks_go E steps bs st).pool_writepos < POOLSIZE ∧
      (add_chunks_go E steps bs st).pool_readpos < POOLSIZE
  | 0, bs, st => fun hw hr => ⟨hw, hr⟩
  | steps + 1, bs, st => fun hw hr => by
      simp only [add_chunks_go]
      split
      · exact ⟨hw, hr⟩
      · refine add_chunks_go_cursors E steps _ _ ?_ ?_
        · exact add_randomness_wp E st _ _ hw
        · rw [add_randomness_readpos]
          exact hr

end Csprng

namespace Csprng

set_option maxRecDepth 40000

/-- C1 (amended): in mix(pool), iteration n = 1 .. POOLBLOCKS-1 reads
its 64-byte input block starting at offset (n-1) * DIGESTLEN with
wrap-around at POOLSIZE and writes the 20-byte mix_block output to
pool[n * DIGESTLEN .. n * DIGESTLEN + DIGESTLEN): the mixer equals the
mixer written with these explicit offsets. -/
theorem C1_mixer_loop {σ : Type} (E : Env σ) (isRnd : Bool) (fsd : Nat)
    (fsv : Bool) (pool : Nat) :
    mix_pool E isRnd fsd fsv pool = mix_pool_amended E isRnd fsd fsv pool := by
  simp only [mix_pool, mix_pool_amended, mix_loop_zero_eq_shifted_one]

/-- C1 counterexample: on a concrete pool image (byte i equal to i mod
256) and the design document's copy stub for mix_block, the mixer does
NOT equal the claimed loop that reads each block at offset
n * DIGESTLEN. -/
theorem C1_counterexample :
    mix_pool stubEnv false 0 false rampPool
      ≠ mix_pool_claimed stubEnv false 0 false rampPool := by decide

/-- C3: the accumulator XORs each incoming byte into rndpool at
write_pos and increments it; at each wrap it credits
pool_filled_counter with the buffer bytes accumulated since the last
wrap exactly when origin is at least SLOWPOLL and pool_filled is still
false (setting pool_filled once the counter reaches POOLSIZE), then
resets write_pos, mixes rndpool and sets just_mixed to whether the
wrapping byte was the buffer's last: add_randomness equals the
accumulator written from that description. -/
theorem C3_accumulator {σ : Type} (E : Env σ) (st : PoolState)
    (buf : List Nat) (origin : RO) :
    add_randomness E st buf origin = add_randomness_spec E st buf origin :=
  add_loop_eq_spec E origin buf 0 0 _ (fun _ _ => rfl)

/-- C9: a zero-length request through the outward randomize wrapper
leaves the caller's buffer unchanged. -/
theorem C9_zero_length_noop {σ : Type} (E : Env σ) (fuel : Nat)
    (pid : List Nat) (lvl : Nat) (buffer : List Nat) (st : PoolState) :
    (randomize E fuel pid buffer 0 lvl st).buffer = buffer := by
  simp [randomize, randomize_loop, randomize_go]

/-- C10: the BUG() branch inside the first-time very-strong extra
seeding of read_pool is unreachable: the entry oversize check stops any
request larger than POOLSIZE first, and for length at most POOLSIZE the
needed amount max(length, 16) never exceeds POOLSIZE. -/
theorem C10_initial_seeding_bug_unreachable {σ : Type} (E : Env σ)
    (fuel : Nat) (pid : List Nat) (length lvl : Nat) (st : PoolState) :
    (read_pool E fuel pid length lvl st).fatal
      ≠ some Fatal.bugInitialSeeding := by
  simp only [read_pool]
  split
  · simp
  · next hov =>
      have hlen : length ≤ POOLSIZE := by omega
      have h1 := rp_topup1_none E length lvl
        (rp_seed E (rp_forkpre E pid st)).1 hlen
      split
      · next f st2 r2 heq => rw [heq] at h1; simp at h1
      · next st2 r2 heq =>
          have h2 := rp_topup2_none E length lvl st2 hlen
          split
          · next f st3 r3 heq2 => rw [heq2] at h2; simp at h2
          · next st3 r3 heq2 =>
              have h3 := rp_poll_fatal E fuel st3
              split
              · next f st4 r4 heq3 =>
                  rw [heq3] at h3
                  simp only [Option.some.injEq] at h3
                  rcases h3 with h3 | h3
                  · exact absurd h3 (by simp)
                  · simp [h3]
              · simp

/-- C5 (amended): whenever read_pool returns (rather than terminating
fatally), the POOLSIZE-byte pool region of keypool is all-zero; the
trailing BLOCKLEN scratch bytes are not cleared. -/
theorem C5_keypool_cleared {σ : Type} (E : Env σ) (fuel : Nat)
    (pid : List Nat) (length lvl : Nat) (st : PoolState)
    (hf : (read_pool E fuel pid length lvl st).fatal = none) :
    getBytes (read_pool E fuel pid length lvl st).st.keypool 0 POOLSIZE
      = 0 := by
  revert hf
  simp only [read_pool]
  split
  · intro hf; exact absurd hf (by simp)
  · split
    · intro hf; exact absurd hf (by simp)
    · split
      · intro hf; exact absurd hf (by simp)
      · split
        · intro hf; exact absurd hf (by simp)
        · next st4 r4 heq3 =>
            intro _
            exact rp_finish_keypool E pid length st4

end Csprng

namespace Csprng

/-- C2 (amended): when a valid seed file is loaded, the additional
fresh bytes (128 with a jitter RNG, else 32) are requested with origin
INIT at level STRONG; INIT-origin folding changes neither pool_filled
nor pool_filled_counter, and pool_filled becomes true because read_pool
sets it directly upon the successful load. -/
theorem C2_seed_topup {σ : Type} (E : Env σ) (st : PoolState)
    (buf : List Nat) (fuel : Nat) (pid : List Nat) (len lvl : Nat)
    (hs : E.seedBytes = some buf) (hlen : len ≤ POOLSIZE) :
    (read_seed_file E st).1 = true ∧
    (read_seed_file E st).2.2 = [⟨RO.init, if E.jitter then 128 else 32, 1⟩] ∧
    (read_seed_file E st).2.1.pool_filled = st.pool_filled ∧
    (read_seed_file E st).2.1.pool_filled_counter = st.pool_filled_counter ∧
    (read_pool E fuel pid len lvl st).st.pool_filled = true := by
  have h := read_seed_file_some E st buf hs
  exact ⟨h.1, h.2.1, h.2.2.1, h.2.2.2.1,
         read_pool_filled_seed E fuel pid len lvl st buf hs hlen⟩

/-- C4: on the first VERY_STRONG extraction (extra-seeding flag still
clear) with length at most POOLSIZE, the extractor makes exactly one
EXTRAPOLL request, for max(length, 16) bytes at level VERY_STRONG, it
sets the extra-seeding flag, and the top-up step itself ends with
pool_balance equal to max(length, 16) after zeroing it, without hitting
its fatal branch. -/
theorem C4_very_strong_first_seeding {σ : Type} (E : Env σ) (fuel : Nat)
    (pid : List Nat) (length : Nat) (st : PoolState)
    (hd : st.did_initial_extra_seeding = false) (hlen : length ≤ POOLSIZE) :
    (read_pool E fuel pid length 2 st).reqs.filter
        (fun q => decide (q.origin = RO.extrapoll))
      = [⟨RO.extrapoll, max length 16, 2⟩] ∧
    (read_pool E fuel pid length 2 st).st.did_initial_extra_seeding = true ∧
    (rp_topup1 E length 2 (rp_seed E (rp_forkpre E pid st)).1).1 = none ∧
    (rp_topup1 E length 2
        (rp_seed E (rp_forkpre E pid st)).1).2.1.pool_balance
      = ((max length 16 : Nat) : Int) := by
  have hd1 : (rp_seed E (rp_forkpre E pid st)).1.did_initial_extra_seeding
      = false := by
    rw [(rp_pre_fields E pid st).2.1]
    exact hd
  have hspec := rp_topup1_spec E length (rp_seed E (rp_forkpre E pid st)).1
    hd1 hlen
  have hseedf : (rp_seed E (rp_forkpre E pid st)).2.filter
      (fun q => decide (q.origin = RO.extrapoll)) = [] :=
    filter_extrapoll_nil _ (fun p hp => by
      rw [rp_seed_reqs E (rp_forkpre E pid st) p hp]
      decide)
  refine ⟨?_, ?_, hspec.1, hspec.2.2.1⟩ <;>
  · simp only [read_pool]
    rw [if_neg (by omega : ¬ length > POOLSIZE)]
    split
    · next f st2 r2 heq =>
        rw [heq] at hspec
        simpa using hspec.1
    · next st2 r2 heq =>
        have hr2 : r2 = [⟨RO.extrapoll, max length 16, 2⟩] := by
          have h2 : (rp_topup1 E length 2
              (rp_seed E (rp_forkpre E pid st)).1).2.2 = r2 := by rw [heq]
          rw [← h2, hspec.2.1]
        have hst2 : st2 = (rp_topup1 E length 2
            (rp_seed E (rp_forkpre E pid st)).1).2.1 := by rw [heq]
        have hst2did : st2.did_initial_extra_seeding = true := by
          rw [hst2]
          exact hspec.2.2.2
        have hbal : st2.pool_balance = ((max length 16 : Nat) : Int) := by
          rw [hst2]
          exact hspec.2.2.1
        have hskip : rp_topup2 E length 2 st2 = (none, st2, []) := by
          apply rp_topup2_skip
          intro hcon
          have hlt := hcon.2
          rw [hbal] at hlt
          have hle : (length : Int) ≤ ((max length 16 : Nat) : Int) := by
            exact_mod_cast Nat.le_max_left length 16
          omega
        split
        · next f st3 r3 heq2 =>
            rw [hskip] at heq2
            simp at heq2
        · next st3 r3 heq2 =>
            rw [hskip] at heq2
            simp only [Prod.mk.injEq, true_and] at heq2
            obtain ⟨hst3, hr3⟩ := heq2
            have hst3did : st3.did_initial_extra_seeding = true := by
              rw [← hst3]
              exact hst2did
            have hpollreq : ∀ (st' : PoolState),
                (rp_poll E fuel st').2.2.filter
                  (fun q => decide (q.origin = RO.extrapoll)) = [] :=
              fun st' => filter_extrapoll_nil _ (fun p hp => by
                rw [rp_poll_reqs E fuel st' p hp]
                decide)
            split
            · next f st4 r4 heq3 =>
                have hst4 : st4 = (rp_poll E fuel st3).2.1 := by rw [heq3]
                have hr4 : (rp_poll E fuel st3).2.2 = r4 := by rw [heq3]
                first
                | (show ((rp_seed E (rp_forkpre E pid st)).2 ++ r2 ++ r3
                      ++ r4).filter (fun q => decide (q.origin = RO.extrapoll))
                      = [⟨RO.extrapoll, max length 16, 2⟩]
                   rw [List.filter_append, List.filter_append,
                       List.filter_append, hseedf, ← hr3, ← hr4, hpollreq st3,
                       hr2]
                   rfl)
                | (show st4.did_initial_extra_seeding = true
                   rw [hst4, (rp_poll_fields E fuel st3).2.2.1]
                   exact hst3did)
            · next st4 r4 heq3 =>
                have hst4 : st4 = (rp_poll E fuel st3).2.1 := by rw [heq3]
                have hr4 : (rp_poll E fuel st3).2.2 = r4 := by rw [heq3]
                first
                | (show ((rp_seed E (rp_forkpre E pid st)).2 ++ r2 ++ r3
                      ++ r4).filter (fun q => decide (q.origin = RO.extrapoll))
                      = [⟨RO.extrapoll, max length 16, 2⟩]
                   rw [List.filter_append, List.filter_append,
                       List.filter_append, hseedf, ← hr3, ← hr4, hpollreq st3,
                       hr2]
                   rfl)
                | (show (rp_finish E pid length
                        st4).1.did_initial_extra_seeding = true
                   rw [rp_finish_did, hst4, (rp_poll_fields E fuel st3).2.2.1]
                   exact hst3did)

end Csprng

namespace Csprng

/-- C6 (amended): add-bytes rejects a null buffer with an
invalid-argument code; a non-null buffer whose clamped quality is below
10 — that is, 0 <= quality < 10, or quality < 0 other than the sentinel
-1 (which is mapped to 35 and accepted) — is dropped with success and no
state change; accepted buffers are folded via add_randomness with
origin EXTERNAL in chunks of at most POOLSIZE bytes that concatenate
back to the buffer. -/
theorem C6_add_bytes {σ : Type} (E : Env σ) (bs : List Nat) (q : Int)
    (st : PoolState) :
    (add_bytes E none q st = (GcryResult.invArg, st)) ∧
    (0 ≤ q → q < 10 → add_bytes E (some bs) q st = (GcryResult.ok, st)) ∧
    (q < 0 → q ≠ -1 → add_bytes E (some bs) q st = (GcryResult.ok, st)) ∧
    (add_chunks E bs st
      = (chunksOf bs).foldl (fun t c => add_randomness E t c .external) st) ∧
    (∀ c ∈ chunksOf bs, c.length ≤ POOLSIZE) ∧
    ((chunksOf bs).flatten = bs) := by
  refine ⟨rfl, ?_, ?_, ?_, ?_, ?_⟩
  · intro h0 h10
    simp only [add_bytes]
    rw [if_neg (by omega : ¬ q = -1), if_neg (by omega : ¬ q > 100),
        if_neg (by omega : ¬ q < 0), if_pos (Or.inr h10)]
  · intro hneg hne
    simp only [add_bytes]
    rw [if_neg hne, if_neg (by omega : ¬ q > 100), if_pos hneg,
        if_pos (Or.inr (by norm_num : (0 : Int) < 10))]
  · exact add_chunks_go_eq E bs.length bs st (le_refl _)
  · exact chunksOf_go_le bs.length bs
  · exact chunksOf_go_flatten bs.length bs (le_refl _)

/-- C7: the randomize wrapper splits every request into successive
read_pool calls of at most POOLSIZE bytes (601 bytes become the chunk
list chunkDecomp 601 = [600, 1] when no fatal occurs), so the
extractor's oversize check never fires for wrapper-issued calls, and
each completed read_pool call leaves the read cursor advanced by the
request length modulo POOLSIZE, so the following call reads from the
advanced position. -/
theorem C7_randomize_chunking {σ : Type} (E : Env σ) (fuel : Nat)
    (pid : List Nat) (buffer : List Nat) (length lvl : Nat)
    (st : PoolState) :
    (∀ c ∈ (randomize E fuel pid buffer length lvl st).chunkSizes,
      c ≤ POOLSIZE) ∧
    ((randomize E fuel pid buffer length lvl st).fatal
      ≠ some Fatal.oversize) ∧
    ((randomize E fuel pid buffer length lvl st).fatal = none →
      (randomize E fuel pid buffer length lvl st).chunkSizes
        = chunkDecomp length) ∧
    (∀ (n lvl2 : Nat) (st2 : PoolState), n ≤ POOLSIZE →
      st2.pool_readpos < POOLSIZE →
      (read_pool E fuel pid n lvl2 st2).fatal = none →
      (read_pool E fuel pid n lvl2 st2).st.pool_readpos
        = (st2.pool_readpos + n) % POOLSIZE) := by
  refine ⟨?_, ?_, ?_, ?_⟩
  · intro c hc
    exact (randomize_go_chunks E fuel pid _ length length st c hc).2
  · rcases randomize_go_fatal E fuel pid
        ((if E.quick_test ∧ lvl > 1 then 1 else lvl) % 4) length length st
      with h | h <;>
    · show (randomize_go E fuel pid
          ((if E.quick_test ∧ lvl > 1 then 1 else lvl) % 4)
          length length st).1 ≠ some Fatal.oversize
      rw [h]
      simp
  · intro hf
    exact randomize_go_sizes E fuel pid _ length length st hf
  · intro n lvl2 st2 hn hr hf
    exact read_pool_readpos E fuel pid n lvl2 st2 hn hr hf

/-- C8: every public operation — accumulation, extraction via the
randomize wrapper, the seed-file write, close, and each chunk-wise
accumulation step of add-bytes (its per-chunk unlock points) —
preserves the cursor invariant 0 <= write_pos < POOLSIZE and
0 <= read_pos < POOLSIZE (the lower bounds hold because the cursors are
natural numbers). -/
theorem C8_cursor_invariants {σ : Type} (E : Env σ) (fuel : Nat)
    (pid buffer bs : List Nat) (lvl length : Nat)
    (bufOpt : Option (List Nat)) (q : Int) (origin : RO) (st : PoolState)
    (h : cursors_ok st) :
    cursors_ok (add_randomness E st bs origin) ∧
    cursors_ok (add_bytes E bufOpt q st).2 ∧
    cursors_ok (randomize E fuel pid buffer length lvl st).st ∧
    cursors_ok (update_seed_file E st) ∧
    cursors_ok (close_fds st) := by
  obtain ⟨hw, hr⟩ := h
  refine ⟨⟨add_randomness_wp E st bs origin hw,
          by rw [add_randomness_readpos]; exact hr⟩, ?_, ?_, ?_, ?_⟩
  · cases bufOpt with
    | none => exact ⟨hw, hr⟩
    | some l =>
        simp only [add_bytes]
        by_cases hcond : l.length = 0 ∨
            (if q = -1 then (35 : Int) else if q > 100 then 100
             else if q < 0 then 0 else q) < 10
        · rw [if_pos hcond]
          exact ⟨hw, hr⟩
        · rw [if_neg hcond]
          exact add_chunks_go_cursors E l.length l st hw hr
  · exact randomize_go_cursors E fuel pid _ length length st hw hr
  · simp only [update_seed_file]
    split
    · exact ⟨hw, hr⟩
    · constructor
      · show (rp_doublemix E (rp_derive st)).pool_writepos < POOLSIZE
        rw [(rp_doublemix_fields E _).2.1, (rp_derive_fields _).2.1]
        exact hw
      · show (rp_doublemix E (rp_derive st)).pool_readpos < POOLSIZE
        rw [(rp_doublemix_fields E _).1, (rp_derive_fields _).1]
        exact hr
  · exact ⟨show (0 : Nat) < POOLSIZE by decide,
           show (0 : Nat) < POOLSIZE by decide⟩

end Csprng

namespace Csprng

set_option maxRecDepth 100000

/-- C2 counterexample: with a valid all-zero seed file and the stub
environment, the post-load fresh-byte request has origin INIT — no
EXTRAPOLL request is ever made — and pool_filled nevertheless becomes
true while pool_filled_counter stays below POOLSIZE, contradicting the
claim that the bytes are requested with origin EXTRAPOLL and that
pool_filled is set only via that top-up reaching the counter test. -/
theorem C2_counterexample :
    (read_seed_file seededEnv zeroState).2.2 = [⟨RO.init, 128, 1⟩] ∧
    (read_seed_file seededEnv zeroState).2.2.filter
        (fun q => decide (q.origin = RO.extrapoll)) = [] ∧
    (read_pool seededEnv 0 [3] 32 1 zeroState).st.pool_filled = true ∧
    (read_pool seededEnv 0 [3] 32 1 zeroState).st.pool_filled_counter
      < POOLSIZE ∧
    (read_pool seededEnv 0 [3] 32 1 zeroState).reqs.filter
        (fun q => decide (q.origin = RO.extrapoll)) = [] := by decide

/-- C2 witness: the amended statement applied to the stub environment
with a seed file. -/
theorem C2_witness :
    seededEnv.seedBytes = some (List.replicate POOLSIZE 0) ∧
    (read_seed_file seededEnv zeroState).2.2 = [⟨RO.init, 128, 1⟩] ∧
    (read_pool seededEnv 2 [3] 10 1 zeroState).st.pool_filled = true := by
  have h := C2_seed_topup seededEnv zeroState (List.replicate POOLSIZE 0)
    2 [3] 10 1 rfl (by decide)
  refine ⟨rfl, ?_, h.2.2.2.2⟩
  rw [h.2.1]
  rfl

/-- C4 witness: the first very-strong extraction at length 5 issues one
EXTRAPOLL request of max(5, 16) = 16 bytes and sets the flag. -/
theorem C4_witness :
    filledState.did_initial_extra_seeding = false ∧
    (read_pool stubEnv 0 [3] 5 2 filledState).reqs.filter
        (fun q => decide (q.origin = RO.extrapoll))
      = [⟨RO.extrapoll, max 5 16, 2⟩] ∧
    (read_pool stubEnv 0 [3] 5 2 filledState).st.did_initial_extra_seeding
      = true := by
  have h := C4_very_strong_first_seeding stubEnv 0 [3] 5 filledState
    (by decide) (by decide)
  exact ⟨by decide, h.1, h.2.1⟩

/-- C5 counterexample: after a concrete successful extraction the
keypool buffer is NOT all-zero — the 64-byte scratch tail retains mixing
residue (only the first POOLSIZE bytes are cleared). -/
theorem C5_counterexample :
    (read_pool stubEnv 0 [3] 1 1 filledState).fatal = none ∧
    getBytes (read_pool stubEnv 0 [3] 1 1 filledState).st.keypool 0
        (POOLSIZE + BLOCKLEN) ≠ 0 := by decide

/-- C5 witness: the amended statement applied to a concrete successful
extraction. -/
theorem C5_witness :
    (read_pool stubEnv 0 [3] 2 1 filledState).fatal = none ∧
    getBytes (read_pool stubEnv 0 [3] 2 1 filledState).st.keypool 0 POOLSIZE
      = 0 :=
  ⟨by decide, C5_keypool_cleared stubEnv 0 [3] 2 1 filledState (by decide)⟩

/-- C6 counterexample: quality -1 is below 10, yet add-bytes on a
non-null one-byte buffer returns success AND changes both the pool and
the addbytes statistics counter (-1 is clamped to 35 before the
below-10 check), contradicting the claim for every quality below 10. -/
theorem C6_counterexample :
    ((-1 : Int) < 10) ∧
    (add_bytes stubEnv (some [1]) (-1) zeroState).1 = GcryResult.ok ∧
    (add_bytes stubEnv (some [1]) (-1) zeroState).2.addbytes
      ≠ zeroState.addbytes ∧
    (add_bytes stubEnv (some [1]) (-1) zeroState).2.rndpool
      ≠ zeroState.rndpool := by decide

/-- C6 witness: the amended statement applied to quality 5 on a
two-byte buffer. -/
theorem C6_witness :
    (0 : Int) ≤ 5 ∧ (5 : Int) < 10 ∧
    add_bytes stubEnv (some [7, 8]) 5 zeroState = (GcryResult.ok, zeroState) :=
  ⟨by decide, by decide,
   (C6_add_bytes stubEnv [7, 8] 5 zeroState).2.1 (by decide) (by decide)⟩

/-- C7 witness: a 601-byte request is served as two read_pool calls of
600 and 1 bytes. -/
theorem C7_witness :
    (randomize stubEnv 0 [3] (List.replicate 601 7) 601 1 filledState).fatal
      = none ∧
    (randomize stubEnv 0 [3] (List.replicate 601 7) 601 1
        filledState).chunkSizes = chunkDecomp 601 ∧
    chunkDecomp 601 = [600, 1] := by
  refine ⟨by decide, ?_, by decide⟩
  exact (C7_randomize_chunking stubEnv 0 [3] (List.replicate 601 7) 601 1
    filledState).2.2.1 (by decide)

/-- C8 witness: the invariant theorem applied to the freshly
initialized state. -/
theorem C8_witness :
    cursors_ok zeroState ∧ cursors_ok (close_fds zeroState) := by
  refine ⟨⟨by decide, by decide⟩, ?_⟩
  exact (C8_cursor_invariants stubEnv 0 [3] [4] [5] 1 3 none 0 RO.init
    zeroState ⟨by decide, by decide⟩).2.2.2.2

end Csprng
